import Mathlib

set_option maxRecDepth 100000

/-!
Shallow embedding of the xochimilco end-to-end encryption library
(X3DH handshake, Double Ratchet, session state machine and wire codec),
together with proofs and refutations of the specification claims.

Byte strings are modelled as `List Nat` (each entry a byte value).
External cryptographic primitives (HMAC-SHA256, HKDF-SHA256, AES-256-CBC,
X25519, Ed25519) are library dependencies of the program, not part of this
repository; they are bundled in a `Prims` record the development is
parameterised over, with the properties the library guarantees collected
in `GoodPrims`.  A concrete executable instance `testPrims` is used for
all witnesses and counterexamples.
-/

namespace Xochimilco

/-- Byte strings: each entry is one byte value. -/
abbrev Bytes := List Nat

/-- A list is a well-formed byte string when every entry fits in a byte. -/
def IsBytes (l : Bytes) : Prop := ∀ b ∈ l, b < 256

instance (l : Bytes) : Decidable (IsBytes l) := by
  unfold IsBytes; infer_instance

theorem isBytes_append {l₁ l₂ : Bytes} (h₁ : IsBytes l₁) (h₂ : IsBytes l₂) :
    IsBytes (l₁ ++ l₂) := by
  intro b hb
  rcases List.mem_append.mp hb with h | h
  · exact h₁ b h
  · exact h₂ b h

theorem isBytes_replicate {n v : Nat} (h : v < 256) : IsBytes (List.replicate n v) := by
  intro b hb
  rw [List.eq_of_mem_replicate hb]
  exact h

theorem isBytes_take {l : Bytes} (h : IsBytes l) (n : Nat) : IsBytes (l.take n) :=
  fun b hb => h b (List.mem_of_mem_take hb)

theorem isBytes_drop {l : Bytes} (h : IsBytes l) (n : Nat) : IsBytes (l.drop n) :=
  fun b hb => h b (List.mem_of_mem_drop hb)

/-- Error kinds of the library (the Go code returns `fmt.Errorf` values;
these constructors classify them per the error taxonomy). -/
inductive Err
  | malformed
  | unexpectedMessage
  | badSignature
  | peerRejected
  | macMismatch
  | badPadding
  | skipOverflow
  | unknownSkipped
  | internalInvariant
  deriving DecidableEq, Repr

/-- Go's `copy` into a fresh zeroed buffer of size `n`:
takes at most `n` source bytes, remaining positions stay zero. -/
def fit (n : Nat) (src : Bytes) : Bytes :=
  src.take n ++ List.replicate (n - src.length) 0

theorem fit_eq {n : Nat} {l : Bytes} (h : l.length = n) : fit n l = l := by
  unfold fit
  rw [← h, Nat.sub_self, List.replicate_zero, List.append_nil, List.take_length]

theorem fit_length (n : Nat) (l : Bytes) : (fit n l).length = n := by
  unfold fit
  rw [List.length_append, List.length_take, List.length_replicate]
  omega

theorem isBytes_fit {n : Nat} {l : Bytes} (h : IsBytes l) : IsBytes (fit n l) :=
  isBytes_append (isBytes_take h n) (isBytes_replicate (by omega))

/-! ### Base64 (standard alphabet with padding), from `encoding/base64`. -/

/-- ASCII code of the standard base64 alphabet character for a sextet. -/
def b64Char (n : Nat) : Nat :=
  if n < 26 then 65 + n
  else if n < 52 then 97 + (n - 26)
  else if n < 62 then 48 + (n - 52)
  else if n = 62 then 43
  else 47

/-- Inverse alphabet lookup: sextet for an ASCII code, `none` when invalid. -/
def b64Val (ch : Nat) : Option Nat :=
  if 65 ≤ ch ∧ ch ≤ 90 then some (ch - 65)
  else if 97 ≤ ch ∧ ch ≤ 122 then some (26 + (ch - 97))
  else if 48 ≤ ch ∧ ch ≤ 57 then some (52 + (ch - 48))
  else if ch = 43 then some 62
  else if ch = 47 then some 63
  else none

theorem b64Val_b64Char : ∀ n, n < 64 → b64Val (b64Char n) = some n := by decide

theorem b64Char_ne_pad : ∀ n, n < 64 → b64Char n ≠ 61 := by decide

/-- Standard base64 encoding with `=` padding (ASCII 61). -/
def base64Encode : Bytes → Bytes
  | [] => []
  | [a] => [b64Char (a / 4), b64Char (a % 4 * 16), 61, 61]
  | [a, b] => [b64Char (a / 4), b64Char (a % 4 * 16 + b / 16), b64Char (b % 16 * 4), 61]
  | a :: b :: c :: rest =>
    b64Char (a / 4) :: b64Char (a % 4 * 16 + b / 16) ::
    b64Char (b % 16 * 4 + c / 64) :: b64Char (c % 64) :: base64Encode rest

/-- Standard base64 decoding: input must consist of 4-character quanta,
with `=` padding allowed only at the very end. -/
def base64Decode : Bytes → Except Err Bytes
  | [] => .ok []
  | c1 :: c2 :: c3 :: c4 :: rest =>
    match b64Val c1, b64Val c2 with
    | some s1, some s2 =>
      if c3 = 61 then
        if c4 = 61 ∧ rest = [] then .ok [s1 * 4 + s2 / 16]
        else .error .malformed
      else
        match b64Val c3 with
        | some s3 =>
          if c4 = 61 then
            if rest = [] then .ok [s1 * 4 + s2 / 16, s2 % 16 * 16 + s3 / 4]
            else .error .malformed
          else
            match b64Val c4 with
            | some s4 =>
              (base64Decode rest).map
                (fun tail => (s1 * 4 + s2 / 16) :: (s2 % 16 * 16 + s3 / 4) ::
                  (s3 % 4 * 64 + s4) :: tail)
            | none => .error .malformed
        | none => .error .malformed
    | _, _ => .error .malformed
  | _ => .error .malformed

theorem base64_roundtrip : ∀ l : Bytes, IsBytes l → base64Decode (base64Encode l) = .ok l := by
  intro l
  induction l using base64Encode.induct with
  | case1 =>
    intro _
    rfl
  | case2 a =>
    intro h
    have ha : a < 256 := h a (by simp)
    have h1 : a / 4 < 64 := by omega
    have h2 : a % 4 * 16 < 64 := by omega
    have e1 : a / 4 * 4 + a % 4 * 16 / 16 = a := by omega
    simp only [base64Encode, base64Decode, b64Val_b64Char _ h1, b64Val_b64Char _ h2,
      if_pos rfl, and_self, if_pos, e1]
  | case3 a b =>
    intro h
    have ha : a < 256 := h a (by simp)
    have hb : b < 256 := h b (by simp)
    have h1 : a / 4 < 64 := by omega
    have h2 : a % 4 * 16 + b / 16 < 64 := by omega
    have h3 : b % 16 * 4 < 64 := by omega
    have e1 : a / 4 * 4 + (a % 4 * 16 + b / 16) / 16 = a := by omega
    have e2 : (a % 4 * 16 + b / 16) % 16 * 16 + b % 16 * 4 / 4 = b := by omega
    simp only [base64Encode, base64Decode, b64Val_b64Char _ h1, b64Val_b64Char _ h2,
      b64Val_b64Char _ h3, b64Char_ne_pad _ h3, if_false, if_pos rfl, e1, e2]
    simp
  | case4 a b c rest ih =>
    intro h
    have ha : a < 256 := h a (by simp)
    have hb : b < 256 := h b (by simp)
    have hc : c < 256 := h c (by simp)
    have hrest : IsBytes rest := fun x hx => h x (by simp [hx])
    have h1 : a / 4 < 64 := by omega
    have h2 : a % 4 * 16 + b / 16 < 64 := by omega
    have h3 : b % 16 * 4 + c / 64 < 64 := by omega
    have h4 : c % 64 < 64 := by omega
    have e1 : a / 4 * 4 + (a % 4 * 16 + b / 16) / 16 = a := by omega
    have e2 : (a % 4 * 16 + b / 16) % 16 * 16 + (b % 16 * 4 + c / 64) / 4 = b := by omega
    have e3 : (b % 16 * 4 + c / 64) % 4 * 64 + c % 64 = c := by omega
    simp only [base64Encode, base64Decode, b64Val_b64Char _ h1, b64Val_b64Char _ h2,
      b64Val_b64Char _ h3, b64Val_b64Char _ h4, b64Char_ne_pad _ h3, if_false,
      b64Char_ne_pad _ h4, ih hrest, Except.map, e1, e2, e3]

theorem b64Char_lt (n : Nat) : b64Char n < 256 := by
  unfold b64Char
  split
  · omega
  split
  · omega
  split
  · omega
  split <;> omega

theorem isBytes_base64Encode : ∀ l : Bytes, IsBytes (base64Encode l)
  | [] => by intro x hx; simp [base64Encode] at hx
  | [a] => by
    intro x hx
    have e : base64Encode [a] = [b64Char (a / 4), b64Char (a % 4 * 16), 61, 61] := rfl
    rw [e] at hx
    simp only [List.mem_cons, List.not_mem_nil, or_false] at hx
    rcases hx with h | h | h | h <;> subst h <;> first | exact b64Char_lt _ | omega
  | [a, b] => by
    intro x hx
    have e : base64Encode [a, b] =
        [b64Char (a / 4), b64Char (a % 4 * 16 + b / 16), b64Char (b % 16 * 4), 61] := rfl
    rw [e] at hx
    simp only [List.mem_cons, List.not_mem_nil, or_false] at hx
    rcases hx with h | h | h | h <;> subst h <;> first | exact b64Char_lt _ | omega
  | a :: b :: c :: rest => by
    intro x hx
    have e : base64Encode (a :: b :: c :: rest) =
        b64Char (a / 4) :: b64Char (a % 4 * 16 + b / 16) ::
        b64Char (b % 16 * 4 + c / 64) :: b64Char (c % 64) ::
        base64Encode rest := rfl
    rw [e] at hx
    simp only [List.mem_cons] at hx
    rcases hx with h | h | h | h | h
    · subst h; exact b64Char_lt _
    · subst h; exact b64Char_lt _
    · subst h; exact b64Char_lt _
    · subst h; exact b64Char_lt _
    · exact isBytes_base64Encode rest x h

/-! ### External cryptographic primitives

The program links against `crypto/hmac`, `crypto/aes`, `crypto/ed25519`,
`golang.org/x/crypto/curve25519` and `golang.org/x/crypto/hkdf`.  Those
libraries are not part of this repository; the development is parameterised
over them. -/

/-- The external primitive functions consumed by the program. -/
structure Prims where
  /-- HMAC-SHA256, as a function of key and message; output is 32 bytes. -/
  hmac : Bytes → Bytes → Bytes
  /-- HKDF-SHA256 stream of `outLen` bytes from (IKM, salt, info). -/
  hkdf : Bytes → Bytes → Bytes → Nat → Bytes
  /-- AES-256-CBC encryption of block-aligned data under (key, iv). -/
  aesEnc : Bytes → Bytes → Bytes → Bytes
  /-- AES-256-CBC decryption of block-aligned data under (key, iv). -/
  aesDec : Bytes → Bytes → Bytes → Bytes
  /-- X25519 scalar multiplication: (scalar, point) to shared point. -/
  curve : Bytes → Bytes → Bytes
  /-- Ed25519 public key of a private key. -/
  edPub : Bytes → Bytes
  /-- Ed25519 signature by a private key over a message. -/
  edSign : Bytes → Bytes → Bytes
  /-- Ed25519 signature verification (public key, message, signature). -/
  edVerify : Bytes → Bytes → Bytes → Bool
  /-- Conversion of an Ed25519 private key to an X25519 scalar. -/
  edPrivToX : Bytes → Bytes
  /-- Conversion of an Ed25519 public key to an X25519 point. -/
  edPubToX : Bytes → Bytes

/-- `curve25519.Basepoint`: the byte 9 followed by 31 zero bytes. -/
def basepoint : Bytes := 9 :: List.replicate 31 0

/-- Properties of the primitives guaranteed by their libraries and RFCs,
used as hypotheses of the theorems. -/
structure GoodPrims (P : Prims) : Prop where
  hmacLen : ∀ k m, (P.hmac k m).length = 32
  hmacBytes : ∀ k m, IsBytes (P.hmac k m)
  hkdfLen : ∀ i s f n, (P.hkdf i s f n).length = n
  hkdfBytes : ∀ i s f n, IsBytes (P.hkdf i s f n)
  aesLen : ∀ k iv d, (P.aesEnc k iv d).length = d.length
  aesBytes : ∀ k iv d, IsBytes d → IsBytes (P.aesEnc k iv d)
  aesRound : ∀ k iv d, P.aesDec k iv (P.aesEnc k iv d) = d
  curveLen : ∀ s p, (P.curve s p).length = 32
  curveBytes : ∀ s p, IsBytes (P.curve s p)
  curveComm : ∀ a b, P.curve a (P.curve b basepoint) = P.curve b (P.curve a basepoint)
  edPubLen : ∀ k, (P.edPub k).length = 32
  edPubBytes : ∀ k, IsBytes (P.edPub k)
  edSignLen : ∀ k m, (P.edSign k m).length = 64
  edSignBytes : ∀ k m, IsBytes (P.edSign k m)
  edPrivToXLen : ∀ k, (P.edPrivToX k).length = 32
  edPubToXLen : ∀ k, (P.edPubToX k).length = 32
  signOk : ∀ k m, P.edVerify (P.edPub k) m (P.edSign k m) = true
  duality : ∀ k, P.edPubToX (P.edPub k) = P.curve (P.edPrivToX k) basepoint

/-- Concrete executable primitive instance used by witnesses and
counterexamples.  It is not real cryptography, but satisfies `GoodPrims`. -/
def testPrims : Prims where
  hmac := fun k m => fit 32 ((k ++ m).map (· % 256))
  hkdf := fun i s f n => fit n ((i ++ s ++ f).map (· % 256))
  aesEnc := fun _ _ d => d
  aesDec := fun _ _ d => d
  curve := fun s p => fit 32 [s.sum * p.sum % 256]
  edPub := fun k => fit 32 [k.sum % 256]
  edSign := fun k m => fit 64 ((k ++ m).map (· % 256))
  edVerify := fun _ _ _ => true
  edPrivToX := fun k => fit 32 [k.sum % 256]
  edPubToX := fun q => fit 32 [q.sum * 9 % 256]

theorem isBytes_map_mod (l : Bytes) : IsBytes (l.map (· % 256)) := by
  intro b hb
  rcases List.mem_map.mp hb with ⟨a, _, rfl⟩
  omega

theorem sum_fit32_single (x : Nat) : (fit 32 [x]).sum = x := by
  unfold fit
  simp

theorem basepoint_sum : basepoint.sum = 9 := by
  simp [basepoint]

theorem testPrims_good : GoodPrims testPrims := by
  refine ⟨?_, ?_, ?_, ?_, ?_, ?_, ?_, ?_, ?_, ?_, ?_, ?_, ?_, ?_, ?_, ?_, ?_, ?_⟩
  · intro k m
    exact fit_length _ _
  · intro k m
    exact isBytes_fit (isBytes_map_mod _)
  · intro i s f n
    exact fit_length _ _
  · intro i s f n
    exact isBytes_fit (isBytes_map_mod _)
  · intro k iv d
    rfl
  · intro k iv d h
    exact h
  · intro k iv d
    rfl
  · intro s p
    exact fit_length _ _
  · intro s p
    refine isBytes_fit ?_
    intro b hb
    simp only [List.mem_singleton] at hb
    omega
  · intro a b
    show fit 32 [a.sum * (fit 32 [b.sum * basepoint.sum % 256]).sum % 256] =
      fit 32 [b.sum * (fit 32 [a.sum * basepoint.sum % 256]).sum % 256]
    rw [sum_fit32_single, sum_fit32_single, basepoint_sum]
    have key : ∀ x y : Nat, x * (y * 9 % 256) % 256 = x * y * 9 % 256 := by
      intro x y
      rw [Nat.mul_mod_mod, ← Nat.mul_assoc]
    rw [key, key, Nat.mul_comm a.sum b.sum]
  · intro k
    exact fit_length _ _
  · intro k
    refine isBytes_fit ?_
    intro b hb
    simp only [List.mem_singleton] at hb
    omega
  · intro k m
    exact fit_length _ _
  · intro k m
    exact isBytes_fit (isBytes_map_mod _)
  · intro k
    exact fit_length _ _
  · intro k
    exact fit_length _ _
  · intro k m
    rfl
  · intro k
    show fit 32 [(fit 32 [k.sum % 256]).sum * 9 % 256] =
      fit 32 [(fit 32 [k.sum % 256]).sum * basepoint.sum % 256]
    rw [basepoint_sum]

/-! ### doubleratchet/primitives.go -/

/-- `dh` from primitives.go: X25519 with length validation of both inputs. -/
def dh (P : Prims) (privKey pubKey : Bytes) : Except Err Bytes :=
  if privKey.length ≠ 32 then .error .internalInvariant
  else if pubKey.length ≠ 32 then .error .internalInvariant
  else .ok (P.curve privKey pubKey)

/-- `chainKdf` from primitives.go: HMAC-SHA256 keyed by the 32-byte chain
key over the constants 0x00 (new chain key) and 0x01 (message key). -/
def chainKdf (P : Prims) (ckIn : Bytes) : Except Err (Bytes × Bytes) :=
  if ckIn.length ≠ 32 then .error .internalInvariant
  else .ok (P.hmac ckIn [0], P.hmac ckIn [1])

/-- `rootKdf` from primitives.go: HKDF-SHA256 with IKM the DH output,
salt the 32-byte root key, info 0x02; first 32 bytes are the new root key,
next 32 the chain key. -/
def rootKdf (P : Prims) (rkIn dhOut : Bytes) : Except Err (Bytes × Bytes) :=
  if rkIn.length ≠ 32 then .error .internalInvariant
  else
    let out := P.hkdf dhOut rkIn [2] 64
    .ok (out.take 32, (out.drop 32).take 32)

/-- `encryptParams` from primitives.go: HKDF-SHA256 with IKM the 32-byte
message key, salt 32 zero bytes, info 0x03; 80 bytes split as encryption
key (32), authentication key (32) and IV (16). -/
def encryptParams (P : Prims) (msgKey : Bytes) : Except Err (Bytes × Bytes × Bytes) :=
  if msgKey.length ≠ 32 then .error .internalInvariant
  else
    let out := P.hkdf msgKey (List.replicate 32 0) [3] 80
    .ok (out.take 32, (out.drop 32).take 32, (out.drop 64).take 16)

/-- Modelled from the spec: `pkcs7Pad` is absent from src (only its tests
remain).  Per spec section 4.2 the plaintext is padded to the block size,
the pad value being the padding length, with a full block appended when
already aligned; block sizes outside 1..255 are rejected (matching the
tests in the repository). -/
def pkcs7Pad (data : Bytes) (blockSize : Nat) : Except Err Bytes :=
  if blockSize < 1 ∨ blockSize > 255 then .error .internalInvariant
  else
    let padLen := blockSize - data.length % blockSize
    .ok (data ++ List.replicate padLen padLen)

/-- Modelled from the spec: `pkcs7Unpad` is absent from src (only its tests
remain).  Per spec section 4.2, strict validation: total length a positive
multiple of the block size, pad count in 1..blockSize, every pad byte equal
to the count. -/
def pkcs7Unpad (data : Bytes) (blockSize : Nat) : Except Err Bytes :=
  if blockSize < 1 ∨ blockSize > 255 then .error .internalInvariant
  else if data.length = 0 ∨ data.length % blockSize ≠ 0 then .error .badPadding
  else
    let padLen := data.getLast?.getD 0
    if padLen = 0 ∨ padLen > blockSize then .error .badPadding
    else if data.drop (data.length - padLen) ≠ List.replicate padLen padLen then
      .error .badPadding
    else .ok (data.take (data.length - padLen))

/-- `encrypt` from primitives.go: derive AEAD parameters, PKCS#7-pad to the
AES block size (16), AES-256-CBC encrypt, append HMAC-SHA256 of the
associated data only. -/
def encrypt (P : Prims) (msgKey plaintext associatedData : Bytes) : Except Err Bytes :=
  match encryptParams P msgKey with
  | .error e => .error e
  | .ok (encKey, authKey, iv) =>
    match pkcs7Pad plaintext 16 with
    | .error e => .error e
    | .ok padded => .ok (P.aesEnc encKey iv padded ++ P.hmac authKey associatedData)

/-- `decrypt` from primitives.go: split the trailing 32-byte tag, check AES
block alignment, AES-256-CBC decrypt, strict PKCS#7 unpad, then compare the
tag against HMAC-SHA256 of the associated data.  (The Go code slices
`ciphertext[:len(ciphertext)-sha256.Size]`, which panics when the
ciphertext is shorter than the tag; that case is modelled as an error.) -/
def decrypt (P : Prims) (msgKey ciphertext associatedData : Bytes) : Except Err Bytes :=
  match encryptParams P msgKey with
  | .error e => .error e
  | .ok (encKey, authKey, iv) =>
    if ciphertext.length < 32 then .error .malformed
    else
      let aesCipher := ciphertext.take (ciphertext.length - 32)
      if aesCipher.length % 16 ≠ 0 then .error .malformed
      else
        let padded := P.aesDec encKey iv aesCipher
        match pkcs7Unpad padded 16 with
        | .error e => .error e
        | .ok plaintext =>
          if ciphertext.drop (ciphertext.length - 32) ≠ P.hmac authKey associatedData then
            .error .macMismatch
          else .ok plaintext

/-! ### AEAD roundtrip lemmas -/

/-- The AES-256 encryption key derived from a message key. -/
def encKeyOf (P : Prims) (mk : Bytes) : Bytes :=
  (P.hkdf mk (List.replicate 32 0) [3] 80).take 32

/-- The HMAC authentication key derived from a message key. -/
def authKeyOf (P : Prims) (mk : Bytes) : Bytes :=
  ((P.hkdf mk (List.replicate 32 0) [3] 80).drop 32).take 32

/-- The AES-CBC IV derived from a message key. -/
def ivOf (P : Prims) (mk : Bytes) : Bytes :=
  ((P.hkdf mk (List.replicate 32 0) [3] 80).drop 64).take 16

/-- PKCS#7 padding of a plaintext to the 16-byte AES block size. -/
def padded16 (pt : Bytes) : Bytes :=
  pt ++ List.replicate (16 - pt.length % 16) (16 - pt.length % 16)

theorem padded16_length (pt : Bytes) :
    (padded16 pt).length = pt.length + (16 - pt.length % 16) := by
  simp [padded16]

theorem padded16_mod (pt : Bytes) : (padded16 pt).length % 16 = 0 := by
  rw [padded16_length]
  omega

theorem getLast?_replicate_succ : ∀ (n x : Nat), (List.replicate (n + 1) x).getLast? = some x
  | 0, x => rfl
  | n + 1, x => by
    have e : List.replicate (n + 1 + 1) x = x :: List.replicate (n + 1) x := rfl
    have e2 : List.replicate (n + 1) x = x :: List.replicate n x := rfl
    rw [e, e2, List.getLast?_cons_cons, ← e2, getLast?_replicate_succ n x]

theorem pkcs7Pad_16 (data : Bytes) : pkcs7Pad data 16 = .ok (padded16 data) := by
  unfold pkcs7Pad padded16
  norm_num

theorem pkcs7Unpad_padded16 (data : Bytes) : pkcs7Unpad (padded16 data) 16 = .ok data := by
  have hp1 : 1 ≤ 16 - data.length % 16 := by omega
  have hp16 : 16 - data.length % 16 ≤ 16 := by omega
  rcases Nat.exists_eq_add_of_le hp1 with ⟨k, hk⟩
  have hlast : (padded16 data).getLast? = some (16 - data.length % 16) := by
    unfold padded16
    rw [List.getLast?_append, hk]
    rw [Nat.add_comm 1 k, getLast?_replicate_succ]
    rfl
  have hsub : (padded16 data).length - (16 - data.length % 16) = data.length := by
    rw [padded16_length]
    omega
  have hdrop : (padded16 data).drop ((padded16 data).length - (16 - data.length % 16)) =
      List.replicate (16 - data.length % 16) (16 - data.length % 16) := by
    rw [hsub]
    unfold padded16
    exact List.drop_left data _
  have htake : (padded16 data).take ((padded16 data).length - (16 - data.length % 16)) =
      data := by
    rw [hsub]
    unfold padded16
    exact List.take_left data _
  unfold pkcs7Unpad
  rw [if_neg (by omega)]
  rw [if_neg (by rw [padded16_length]; omega)]
  simp only [hlast, Option.getD_some]
  rw [if_neg (by omega)]
  rw [if_neg (by rw [hdrop]; simp)]
  rw [htake]

theorem encrypt_eq (P : Prims) (mk pt ad : Bytes) (hmk : mk.length = 32) :
    encrypt P mk pt ad =
      .ok (P.aesEnc (encKeyOf P mk) (ivOf P mk) (padded16 pt) ++ P.hmac (authKeyOf P mk) ad) := by
  unfold encrypt encryptParams
  rw [if_neg (by omega)]
  simp only [pkcs7Pad_16]
  rfl

theorem decrypt_encrypt {P : Prims} (G : GoodPrims P) (mk pt ad : Bytes)
    (hmk : mk.length = 32) :
    decrypt P mk (P.aesEnc (encKeyOf P mk) (ivOf P mk) (padded16 pt) ++
      P.hmac (authKeyOf P mk) ad) ad = .ok pt := by
  have haesLen : (P.aesEnc (encKeyOf P mk) (ivOf P mk) (padded16 pt)).length =
      (padded16 pt).length := G.aesLen _ _ _
  have htagLen : (P.hmac (authKeyOf P mk) ad).length = 32 := G.hmacLen _ _
  have hctLen : (P.aesEnc (encKeyOf P mk) (ivOf P mk) (padded16 pt) ++
      P.hmac (authKeyOf P mk) ad).length =
      (P.aesEnc (encKeyOf P mk) (ivOf P mk) (padded16 pt)).length + 32 := by
    rw [List.length_append, htagLen]
  have hsub : (P.aesEnc (encKeyOf P mk) (ivOf P mk) (padded16 pt) ++
      P.hmac (authKeyOf P mk) ad).length - 32 =
      (P.aesEnc (encKeyOf P mk) (ivOf P mk) (padded16 pt)).length := by omega
  have hmod : (P.aesEnc (encKeyOf P mk) (ivOf P mk) (padded16 pt)).length % 16 = 0 := by
    rw [haesLen]
    exact padded16_mod pt
  have hpad16 : 16 ≤ (padded16 pt).length := by
    rw [padded16_length]
    omega
  unfold decrypt encryptParams
  rw [if_neg (by omega)]
  simp only
  rw [if_neg (by omega)]
  rw [hsub, List.take_left, List.drop_left]
  rw [if_neg (by omega)]
  have eEnc : (P.hkdf mk (List.replicate 32 0) [3] 80).take 32 = encKeyOf P mk := rfl
  have eIv : ((P.hkdf mk (List.replicate 32 0) [3] 80).drop 64).take 16 = ivOf P mk := rfl
  have eAuth : ((P.hkdf mk (List.replicate 32 0) [3] 80).drop 32).take 32 =
      authKeyOf P mk := rfl
  rw [eEnc, eIv, eAuth, G.aesRound, pkcs7Unpad_padded16]
  simp

/-! ### x3dh package

Modelled from the spec: the x3dh implementation files (`CreateNewSpk`,
`CreateInitialMessage`, `ReceiveInitialMessage` and the Ed25519 to X25519
conversions) are absent from src — only their tests remain.  The
definitions below follow spec section 4.3 verbatim. -/

/-- Modelled from the spec: `CreateNewSpk` generates an X25519 signed
pre-key pair and signs its public part with the Ed25519 identity key.
The fresh X25519 private scalar is passed in as `spkFresh` (the Go code
draws it from the entropy source). -/
def createNewSpk (P : Prims) (idKey spkFresh : Bytes) : Bytes × Bytes × Bytes :=
  let spkPub := P.curve spkFresh basepoint
  (spkPub, spkFresh, P.edSign idKey spkPub)

/-- Modelled from the spec: X3DH session secret from three DH outputs;
HKDF-SHA256 with IKM `0xFF^32 || dh1 || dh2 || dh3`, zero salt, empty
info, 32 bytes of output (spec section 4.3). -/
def x3dhSecret (P : Prims) (dh1 dh2 dh3 : Bytes) : Bytes :=
  P.hkdf (List.replicate 32 255 ++ dh1 ++ dh2 ++ dh3) (List.replicate 32 0) [] 32

/-- Modelled from the spec: `CreateInitialMessage` (spec section 4.3).
Verifies the SPK signature, generates the ephemeral X25519 pair from
`ekFresh`, computes the three DH values and derives the session secret and
associated data. -/
def createInitialMessage (P : Prims) (idKey peerIdPub spkPub spkSig ekFresh : Bytes) :
    Except Err (Bytes × Bytes × Bytes) :=
  if ¬ P.edVerify peerIdPub spkPub spkSig then .error .badSignature
  else
    let ekPub := P.curve ekFresh basepoint
    match dh P (P.edPrivToX idKey) spkPub with
    | .error e => .error e
    | .ok dh1 =>
      match dh P ekFresh (P.edPubToX peerIdPub) with
      | .error e => .error e
      | .ok dh2 =>
        match dh P ekFresh spkPub with
        | .error e => .error e
        | .ok dh3 =>
          .ok (x3dhSecret P dh1 dh2 dh3, P.edPub idKey ++ peerIdPub, ekPub)

/-- Modelled from the spec: `ReceiveInitialMessage` (spec section 4.3),
the mirrored side computing the same three DH values from the SPK private
key and the peer's ephemeral public key. -/
def receiveInitialMessage (P : Prims) (idKey peerIdPub spkPriv ekPub : Bytes) :
    Except Err (Bytes × Bytes) :=
  match dh P spkPriv (P.edPubToX peerIdPub) with
  | .error e => .error e
  | .ok dh1 =>
    match dh P (P.edPrivToX idKey) ekPub with
    | .error e => .error e
    | .ok dh2 =>
      match dh P spkPriv ekPub with
      | .error e => .error e
      | .ok dh3 =>
        .ok (x3dhSecret P dh1 dh2 dh3, peerIdPub ++ P.edPub idKey)

/-! ### doubleratchet/dh_ratchet.go

The file in src retains only `dhKeyPair` and `dh`; the `dhRatchet`
structure and its `step` are absent (an older generation survives
elsewhere in the repository).  They are modelled from spec section 4.4,
with `rootKdf` folded into `step` as required by the caller contract in
doubleratchet.go (`dhStep` assigns `step`'s outputs directly to the chain
keys). -/

/-- Modelled from the spec: the DH ratchet state (spec sections 3 and 4.4).
`rootKey` evolves with each `rootKdf` application. -/
structure DhRatchet where
  rootKey : Bytes
  dhPub : Bytes
  dhPriv : Bytes
  peerDhPub : Bytes
  isActive : Bool
  isInitialized : Bool
  deriving DecidableEq, Repr

/-- Modelled from the spec: active-side construction (spec section 4.4):
store the peer's DH public key and generate an own key pair (from the
fresh scalar `fresh`); state `ActiveUninit`. -/
def dhRatchetActive (P : Prims) (sessKey peerDhPub fresh : Bytes) : DhRatchet :=
  { rootKey := sessKey
    dhPub := P.curve fresh basepoint
    dhPriv := fresh
    peerDhPub := peerDhPub
    isActive := true
    isInitialized := false }

/-- Modelled from the spec: passive-side construction (spec section 4.4):
store the provided key pair as own; state `Passive`. -/
def dhRatchetPassive (sessKey dhPub dhPriv : Bytes) : DhRatchet :=
  { rootKey := sessKey
    dhPub := dhPub
    dhPriv := dhPriv
    peerDhPub := []
    isActive := false
    isInitialized := false }

/-- Modelled from the spec: one DH ratchet step (spec section 4.4).
On the active peer's first step only the send chain is produced from the
stored peer public key; otherwise the receive chain key is derived first,
a fresh own pair is generated (scalar `fresh`), then the send chain key —
both through `rootKdf` on the evolving root key.  Returns the ratchet
state as mutated so far, the own DH public key to advertise, the send and
receive chain keys, and an error indicator. -/
def DhRatchet.step (P : Prims) (r : DhRatchet) (fresh peerDhPub : Bytes) :
    DhRatchet × Bytes × Option Bytes × Option Bytes × Option Err :=
  if r.isActive ∧ ¬ r.isInitialized then
    match dh P r.dhPriv r.peerDhPub with
    | .error e => (r, r.dhPub, none, none, some e)
    | .ok sendDh =>
      match rootKdf P r.rootKey sendDh with
      | .error e => (r, r.dhPub, none, none, some e)
      | .ok (rk, sck) =>
        ({r with rootKey := rk, isInitialized := true}, r.dhPub, some sck, none, none)
  else
    let r1 := {r with peerDhPub := peerDhPub}
    match dh P r1.dhPriv peerDhPub with
    | .error e => (r1, [], none, none, some e)
    | .ok recvDh =>
      match rootKdf P r1.rootKey recvDh with
      | .error e => (r1, [], none, none, some e)
      | .ok (rk1, rck) =>
        let r2 := {r1 with rootKey := rk1, dhPub := P.curve fresh basepoint, dhPriv := fresh}
        match dh P fresh peerDhPub with
        | .error e => (r2, r2.dhPub, none, some rck, some e)
        | .ok sendDh =>
          match rootKdf P r2.rootKey sendDh with
          | .error e => (r2, r2.dhPub, none, some rck, some e)
          | .ok (rk2, sck) =>
            ({r2 with rootKey := rk2}, r2.dhPub, some sck, some rck, none)

/-! ### doubleratchet/doubleratchet.go -/

/-- `maxSkip` from doubleratchet.go. -/
def maxSkip : Int := 32

/-- `Header` from doubleratchet.go: sender's DH ratchet public key,
previous chain length, and this message's chain number. -/
structure Header where
  dhPub : Bytes
  prevNo : Int
  msgNo : Int
  deriving DecidableEq, Repr

/-- The skipped message key buffer `map[[32]byte]map[int][]byte`, modelled
as an insertion-ordered association list of chains, each an association
list from message number to message key. -/
abbrev SkippedKeys := List (Bytes × List (Int × Bytes))

/-- Lookup of a chain's inner map. -/
def findChain (buf : SkippedKeys) (id : Bytes) : Option (List (Int × Bytes)) :=
  (buf.find? (fun e => e.1 = id)).map (·.2)

/-- Inner map lookup. -/
def findSkipped (buf : SkippedKeys) (id : Bytes) (no : Int) : Option Bytes :=
  match findChain buf id with
  | none => none
  | some sub => (sub.find? (fun e => e.1 = no)).map (·.2)

/-- Inner map update `subMap[no] = mk` (overwrite or append). -/
def insertInner (sub : List (Int × Bytes)) (no : Int) (mk : Bytes) : List (Int × Bytes) :=
  match sub with
  | [] => [(no, mk)]
  | e :: rest => if e.1 = no then (no, mk) :: rest else e :: insertInner rest no mk

/-- `dr.skippedMsgKeys[dhPubId] = subMap` with `subMap[recvNo] = msgKey`:
update the chain in place when present, else append a new chain (Go map
insertion; insertion order retained for the model). -/
def insertSkipped (buf : SkippedKeys) (id : Bytes) (no : Int) (mk : Bytes) : SkippedKeys :=
  match buf with
  | [] => [(id, [(no, mk)])]
  | e :: rest =>
    if e.1 = id then (id, insertInner e.2 no mk) :: rest
    else e :: insertSkipped rest id no mk

/-- `delete(subMap, header.MsgNo)` followed by deleting the chain when its
inner map becomes empty. -/
def deleteSkipped (buf : SkippedKeys) (id : Bytes) (no : Int) : SkippedKeys :=
  match buf with
  | [] => []
  | e :: rest =>
    if e.1 = id then
      let sub := e.2.filter (fun x => ¬ x.1 = no)
      if sub.isEmpty then rest else (id, sub) :: rest
    else e :: deleteSkipped rest id no

/-- Total number of cached message keys in the buffer. -/
def totalSkipped (buf : SkippedKeys) : Nat :=
  (buf.map (fun e => e.2.length)).sum

/-- `DoubleRatchet` from doubleratchet.go. -/
structure DoubleRatchet where
  associatedData : Bytes
  dhr : DhRatchet
  peerDhPub : Bytes
  chainKeySend : Option Bytes
  chainKeyRecv : Option Bytes
  sendNo : Int
  recvNo : Int
  prevSendNo : Int
  skippedMsgKeys : SkippedKeys
  deriving DecidableEq, Repr

/-- `CreateActive` from doubleratchet.go. -/
def CreateActive (P : Prims) (sessKey associatedData peerDhPub fresh : Bytes) :
    DoubleRatchet :=
  { associatedData := associatedData
    dhr := dhRatchetActive P sessKey peerDhPub fresh
    peerDhPub := peerDhPub
    chainKeySend := none
    chainKeyRecv := none
    sendNo := 0
    recvNo := 0
    prevSendNo := 0
    skippedMsgKeys := [] }

/-- `CreatePassive` from doubleratchet.go. -/
def CreatePassive (sessKey associatedData dhPub dhPriv : Bytes) : DoubleRatchet :=
  { associatedData := associatedData
    dhr := dhRatchetPassive sessKey dhPub dhPriv
    peerDhPub := []
    chainKeySend := none
    chainKeyRecv := none
    sendNo := 0
    recvNo := 0
    prevSendNo := 0
    skippedMsgKeys := [] }

/-- `dhStep` from doubleratchet.go: capture `prevSendNo`, zero both
counters, and take new chain keys from a DH ratchet step. -/
def DoubleRatchet.dhStep (P : Prims) (dr : DoubleRatchet) (fresh : Bytes) :
    DoubleRatchet × Option Err :=
  let dr1 := {dr with prevSendNo := dr.sendNo, sendNo := 0, recvNo := 0}
  let res := dr1.dhr.step P fresh dr1.peerDhPub
  ({dr1 with dhr := res.1, chainKeySend := res.2.2.1, chainKeyRecv := res.2.2.2.1},
    res.2.2.2.2)

/-- Go's `copy(dhPubId[:], b)` into a zeroed `[32]byte`. -/
def dhPubId (b : Bytes) : Bytes := fit 32 b

/-- The body of `skipMsgKeys`' for-loop, with explicit fuel (each
iteration advances `recvNo` by one, so `until - recvNo` iterations run).
On a `chainKdf` error the chain key is overwritten with the nil result and
the loop aborts, keeping all mutations so far. -/
def skipLoop (P : Prims) (dr : DoubleRatchet) (untilNo : Int) :
    Nat → DoubleRatchet × Option Err
  | 0 => (dr, none)
  | fuel + 1 =>
    if dr.recvNo < untilNo then
      match chainKdf P (dr.chainKeyRecv.getD []) with
      | .error e => ({dr with chainKeyRecv := none}, some e)
      | .ok (ck, mk) =>
        let dr1 := {dr with
          chainKeyRecv := some ck
          skippedMsgKeys := insertSkipped dr.skippedMsgKeys (dhPubId dr.peerDhPub) dr.recvNo mk}
        skipLoop P {dr1 with recvNo := dr1.recvNo + 1} untilNo fuel
    else (dr, none)

/-- `skipMsgKeys` from doubleratchet.go: fail when more than `maxSkip`
messages would be skipped; do nothing without a receiving chain; otherwise
derive and cache message keys up to (excluding) `untilNo`. -/
def DoubleRatchet.skipMsgKeys (P : Prims) (dr : DoubleRatchet) (untilNo : Int) :
    DoubleRatchet × Option Err :=
  if dr.recvNo + maxSkip < untilNo then (dr, some .skipOverflow)
  else if dr.chainKeyRecv = none then (dr, none)
  else skipLoop P dr untilNo (untilNo - dr.recvNo).toNat

/-- `Encrypt` from doubleratchet.go: perform the initial DH step when no
send chain exists yet, advance the send chain, build the header, and
AEAD-encrypt.  Returns the ratchet as mutated so far together with the
header and ciphertext. -/
def DoubleRatchet.encrypt (P : Prims) (dr : DoubleRatchet) (fresh plaintext : Bytes) :
    DoubleRatchet × Except Err (Header × Bytes) :=
  let stepped : DoubleRatchet × Option Err :=
    if dr.chainKeySend = none then dr.dhStep P fresh else (dr, none)
  match stepped with
  | (dr1, some e) => (dr1, .error e)
  | (dr1, none) =>
    match chainKdf P (dr1.chainKeySend.getD []) with
    | .error e => ({dr1 with chainKeySend := none}, .error e)
    | .ok (ck, msgKey) =>
      let h : Header := {dhPub := dr1.dhr.dhPub, prevNo := dr1.prevSendNo, msgNo := dr1.sendNo}
      let dr2 := {dr1 with chainKeySend := some ck, sendNo := dr1.sendNo + 1}
      (dr2, (Xochimilco.encrypt P msgKey plaintext dr1.associatedData).map (fun ct => (h, ct)))

/-- `Decrypt` from doubleratchet.go: on a new peer DH public key, cache the
remaining keys of the old receiving chain and perform a DH step; then
dispatch on the message number (cached skipped key, skip ahead, or advance
the chain) and AEAD-decrypt.  Returns the ratchet as mutated so far. -/
def DoubleRatchet.decrypt (P : Prims) (dr : DoubleRatchet) (fresh : Bytes)
    (h : Header) (ciphertext : Bytes) : DoubleRatchet × Except Err Bytes :=
  let branch : DoubleRatchet × Option Err :=
    if h.dhPub ≠ dr.peerDhPub then
      match dr.skipMsgKeys P h.prevNo with
      | (dr1, some e) => (dr1, some e)
      | (dr1, none) => DoubleRatchet.dhStep P {dr1 with peerDhPub := h.dhPub} fresh
    else (dr, none)
  match branch with
  | (dr3, some e) => (dr3, .error e)
  | (dr3, none) =>
    if h.msgNo < dr3.recvNo then
      match findSkipped dr3.skippedMsgKeys (dhPubId h.dhPub) h.msgNo with
      | none => (dr3, .error .unknownSkipped)
      | some msgKey =>
        let dr4 := {dr3 with
          skippedMsgKeys := deleteSkipped dr3.skippedMsgKeys (dhPubId h.dhPub) h.msgNo}
        (dr4, Xochimilco.decrypt P msgKey ciphertext dr3.associatedData)
    else
      let skipped : DoubleRatchet × Option Err :=
        if h.msgNo > dr3.recvNo then dr3.skipMsgKeys P h.msgNo else (dr3, none)
      match skipped with
      | (dr4, some e) => (dr4, .error e)
      | (dr4, none) =>
        match chainKdf P (dr4.chainKeyRecv.getD []) with
        | .error e => ({dr4 with chainKeyRecv := none}, .error e)
        | .ok (ck, msgKey) =>
          let dr5 := {dr4 with chainKeyRecv := some ck, recvNo := dr4.recvNo + 1}
          (dr5, Xochimilco.decrypt P msgKey ciphertext dr4.associatedData)

/-! ### Ratchet message header codec

Modelled from the spec: the header marshal/parse implementation is absent
from src (only its test remains).  Spec section 4.6: a 40-byte structure
`dhPub(32) || prevNo(4, big-endian) || msgNo(4, big-endian)`; counters
must fit the encoding, otherwise marshalling fails deterministically. -/

/-- `HEADER_LEN` (spec section 4.6). -/
def headerLen : Nat := 40

/-- Big-endian 4-byte encoding of a value below 2^32. -/
def be4 (n : Nat) : Bytes :=
  [n / 16777216 % 256, n / 65536 % 256, n / 256 % 256, n % 256]

/-- Big-endian interpretation of a byte string. -/
def parseBe4 (b : Bytes) : Nat :=
  b.foldl (fun acc x => acc * 256 + x) 0

theorem parseBe4_be4 (n : Nat) (h : n < 4294967296) : parseBe4 (be4 n) = n := by
  unfold parseBe4 be4
  simp only [List.foldl]
  omega

theorem be4_length (n : Nat) : (be4 n).length = 4 := rfl

theorem isBytes_be4 (n : Nat) : IsBytes (be4 n) := by
  intro b hb
  unfold be4 at hb
  simp only [List.mem_cons, List.not_mem_nil, or_false] at hb
  rcases hb with h | h | h | h <;> subst h <;> omega

/-- Modelled from the spec: marshal a ratchet header (spec section 4.6). -/
def marshalHeader (h : Header) : Except Err Bytes :=
  if h.dhPub.length ≠ 32 then .error .malformed
  else if h.prevNo < 0 ∨ h.msgNo < 0 ∨ 4294967296 ≤ h.prevNo ∨ 4294967296 ≤ h.msgNo then
    .error .malformed
  else .ok (h.dhPub ++ be4 h.prevNo.toNat ++ be4 h.msgNo.toNat)

/-- Modelled from the spec: parse a ratchet header from the first
`HEADER_LEN` bytes (spec section 4.6). -/
def parseHeader (b : Bytes) : Except Err Header :=
  if b.length < headerLen then .error .malformed
  else .ok { dhPub := b.take 32
             prevNo := (parseBe4 ((b.drop 32).take 4) : Nat)
             msgNo := (parseBe4 ((b.drop 36).take 4) : Nat) }

/-- Modelled from the spec: the glue used by Session.Send — the current
DoubleRatchet encrypt emits the marshalled header prepended to the AEAD
ciphertext (spec section 4.6: a data body is the raw ciphertext of length
at least `HEADER_LEN + 16 + 32`). -/
def encryptRaw (P : Prims) (dr : DoubleRatchet) (fresh plaintext : Bytes) :
    DoubleRatchet × Except Err Bytes :=
  let r := dr.encrypt P fresh plaintext
  match r.2 with
  | .error e => (r.1, .error e)
  | .ok (h, ct) =>
    match marshalHeader h with
    | .error e => (r.1, .error e)
    | .ok hb => (r.1, .ok (hb ++ ct))

/-- Modelled from the spec: the glue used by Session.Receive — parse the
40-byte header off the raw data body, then run the DoubleRatchet decrypt
on the remaining AEAD ciphertext. -/
def decryptRaw (P : Prims) (dr : DoubleRatchet) (fresh data : Bytes) :
    DoubleRatchet × Except Err Bytes :=
  match parseHeader (data.take headerLen) with
  | .error e => (dr, .error e)
  | .ok h => dr.decrypt P fresh h (data.drop headerLen)

/-! ### Wire envelope codec (message.go, src/unnamed/part_008) -/

/-- `Prefix` = "!XO!". -/
def prefixBytes : Bytes := [33, 88, 79, 33]

/-- `Suffix` = "!OX!". -/
def suffixBytes : Bytes := [33, 79, 88, 33]

/-- The four message payloads (sessOffer, sessAck, sessData, sessClose). -/
inductive Message
  | offer (idKey spKey spSig : Bytes)
  | ack (idKey eKey cipher : Bytes)
  | data (raw : Bytes)
  | close (raw : Bytes)
  deriving DecidableEq, Repr

/-- `offerMessage.MarshalBinary`: 128-byte body
`idKey(32) || spKey(32) || spSig(64)` written with Go `copy`. -/
def offerMarshal (idKey spKey spSig : Bytes) : Bytes :=
  fit 32 idKey ++ fit 32 spKey ++ fit 64 spSig

/-- `ackMessage.MarshalBinary`: body `idKey(32) || eKey(32) || cipher`. -/
def ackMarshal (idKey eKey cipher : Bytes) : Bytes :=
  fit 32 idKey ++ fit 32 eKey ++ cipher

/-- `offerMessage.UnmarshalBinary`: body must be exactly 128 bytes. -/
def offerUnmarshal (data : Bytes) : Except Err Message :=
  if data.length ≠ 128 then .error .malformed
  else .ok (.offer (data.take 32) ((data.drop 32).take 32) (data.drop 64))

/-- `ackMessage.UnmarshalBinary`: body must be longer than 64 bytes. -/
def ackUnmarshal (data : Bytes) : Except Err Message :=
  if data.length ≤ 64 then .error .malformed
  else .ok (.ack (data.take 32) ((data.drop 32).take 32) (data.drop 64))

/-- `dataMessage.UnmarshalBinary`: accepts the body unconditionally
(`*msg = data`); there is no length validation. -/
def dataUnmarshal (data : Bytes) : Except Err Message :=
  .ok (.data data)

/-- `closeMessage.UnmarshalBinary`: constant-time comparison against the
single byte 0xFF. -/
def closeUnmarshal (data : Bytes) : Except Err Message :=
  if data ≠ [255] then .error .malformed else .ok (.close data)

/-- Dispatch of `UnmarshalBinary` on the tag digit. -/
def bodyUnmarshal (t : Nat) (data : Bytes) : Except Err Message :=
  if t = 1 then offerUnmarshal data
  else if t = 2 then ackUnmarshal data
  else if t = 3 then dataUnmarshal data
  else if t = 4 then closeUnmarshal data
  else .error .malformed

/-- `marshalMessage`: `Prefix || asciiDigit(tag) || base64Std(body) || Suffix`
(the code only ever marshals tags 1..4, single decimal digits). -/
def marshalMessage (t : Nat) (body : Bytes) : Bytes :=
  prefixBytes ++ [48 + t] ++ base64Encode body ++ suffixBytes

/-- `unmarshalMessage`: check both affixes, read the tag digit
(`in[len(Prefix)] - '0'` with byte wrap-around), reject unknown tags,
base64-decode the enclosed body and unmarshal it. -/
def unmarshalMessage (inp : Bytes) : Except Err (Nat × Message) :=
  if inp.take 4 = prefixBytes ∧ inp.drop (inp.length - 4) = suffixBytes then
    let t := ((inp.drop 4).headD 0 + 256 - 48) % 256
    if 1 ≤ t ∧ t ≤ 4 then
      match base64Decode ((inp.drop 5).take (inp.length - 9)) with
      | .error e => .error e
      | .ok data => (bodyUnmarshal t data).map (fun m => (t, m))
    else .error .malformed
  else .error .malformed

/-! ### Session state machine (session.go) -/

/-- `Session` from session.go: identity key, peer-verification callback,
optional SPK material (set between Offer and the ack receipt), and the
optional Double Ratchet (set once the handshake reaches it). -/
structure Session where
  idKey : Bytes
  verifyPeer : Bytes → Bool
  spkPub : Option Bytes := none
  spkPriv : Option Bytes := none
  dr : Option DoubleRatchet := none

/-- A freshly constructed session (zero-valued private fields). -/
def sessionInit (idKey : Bytes) (verify : Bytes → Bool) : Session :=
  { idKey := idKey, verifyPeer := verify }

/-- Result record of `Session.Receive`. -/
structure RecvOut where
  sess : Session
  isEstablished : Bool := false
  isClosed : Bool := false
  plaintext : Bytes := []
  err : Option Err := none

/-- `Session.Offer`: create and store a new SPK (fresh X25519 scalar
`spkFresh`), emit the offer message. -/
def Session.offer (P : Prims) (s : Session) (spkFresh : Bytes) : Session × Bytes :=
  let r := createNewSpk P s.idKey spkFresh
  ({s with spkPub := some r.1, spkPriv := some r.2.1},
    marshalMessage 1 (offerMarshal (P.edPub s.idKey) r.1 r.2.2))

/-- `Session.Acknowledge`: unmarshal the offer, verify the peer identity,
run the X3DH initial-message side, build the active Double Ratchet and
encrypt the 23-byte random initial payload into the ack message.
Fresh entropy: `ekFresh` (X3DH ephemeral), `drFresh` (ratchet DH pair),
`payload` (the random initial payload). -/
def Session.acknowledge (P : Prims) (s : Session) (ekFresh drFresh payload : Bytes)
    (offerMsg : Bytes) : Session × Except Err Bytes :=
  match unmarshalMessage offerMsg with
  | .error e => (s, .error e)
  | .ok (_, .offer idK spK spSig) =>
    if ¬ s.verifyPeer idK then (s, .error .peerRejected)
    else
      match createInitialMessage P s.idKey idK spK spSig ekFresh with
      | .error e => (s, .error e)
      | .ok (sessKey, ad, ekPub) =>
        let dr0 := CreateActive P sessKey ad spK drFresh
        let r := encryptRaw P dr0 [] payload
        let s1 := {s with dr := some r.1}
        match r.2 with
        | .error e => (s1, .error e)
        | .ok ct => (s1, .ok (marshalMessage 2 (ackMarshal (P.edPub s.idKey) ekPub ct)))
  | .ok _ => (s, .error .unexpectedMessage)

/-- `receiveAck` from session.go: reject when a ratchet already exists,
verify the peer, run the X3DH receiving side with the stored SPK, install
the passive Double Ratchet, erase the SPK, then decrypt (and discard) the
initial ciphertext.  Note the ratchet is installed and the SPK erased
before the decryption, so a decryption failure leaves them mutated. -/
def Session.receiveAck (P : Prims) (s : Session) (fresh idK eK cipher : Bytes) :
    Session × Bool × Option Err :=
  if s.dr ≠ none then (s, false, some .unexpectedMessage)
  else if ¬ s.verifyPeer idK then (s, false, some .peerRejected)
  else
    match receiveInitialMessage P s.idKey idK (s.spkPriv.getD []) eK with
    | .error e => (s, false, some e)
    | .ok (sessKey, ad) =>
      let dr0 := CreatePassive sessKey ad (s.spkPub.getD []) (s.spkPriv.getD [])
      let r := decryptRaw P dr0 fresh cipher
      let s1 := {s with dr := some r.1, spkPub := none, spkPriv := none}
      match r.2 with
      | .error e => (s1, false, some e)
      | .ok _ => (s1, true, none)

/-- `receiveData` from session.go: require an active ratchet, then
ratchet-decrypt (the ratchet keeps any mutation made before a failure). -/
def Session.receiveData (P : Prims) (s : Session) (fresh raw : Bytes) :
    Session × Bytes × Option Err :=
  match s.dr with
  | none => (s, [], some .unexpectedMessage)
  | some dr0 =>
    let r := decryptRaw P dr0 fresh raw
    let s1 := {s with dr := some r.1}
    match r.2 with
    | .error e => (s1, [], some e)
    | .ok pt => (s1, pt, none)

/-- `Session.Receive`: unmarshal, then dispatch on the message type —
ack and data messages are processed, close only sets the `isClosed` flag
(the session state itself is untouched), anything else (including an
offer) is an unexpected message. -/
def Session.receive (P : Prims) (s : Session) (fresh msg : Bytes) : RecvOut :=
  match unmarshalMessage msg with
  | .error e => {sess := s, err := some e}
  | .ok (_, .ack idK eK cipher) =>
    let r := s.receiveAck P fresh idK eK cipher
    {sess := r.1, isEstablished := r.2.1, err := r.2.2}
  | .ok (_, .data raw) =>
    let r := s.receiveData P fresh raw
    {sess := r.1, plaintext := r.2.1, err := r.2.2}
  | .ok (_, .close _) => {sess := s, isClosed := true}
  | .ok _ => {sess := s, err := some .unexpectedMessage}

/-- `Session.Send`: require an active ratchet, ratchet-encrypt, emit the
data message. -/
def Session.send (P : Prims) (s : Session) (fresh plaintext : Bytes) :
    Session × Except Err Bytes :=
  match s.dr with
  | none => (s, .error .unexpectedMessage)
  | some dr0 =>
    let r := encryptRaw P dr0 fresh plaintext
    let s1 := {s with dr := some r.1}
    match r.2 with
    | .error e => (s1, .error e)
    | .ok ct => (s1, .ok (marshalMessage 3 ct))

/-- `Session.Close`: reset every private field and emit the close
message (the same session value may be reused afterwards). -/
def Session.close (s : Session) : Session × Bytes :=
  ({s with spkPub := none, spkPriv := none, dr := none},
    marshalMessage 4 [255])

/-! ### Helper lemmas about the embedded operations -/

theorem dh_ok (P : Prims) {priv pub : Bytes} (h1 : priv.length = 32) (h2 : pub.length = 32) :
    dh P priv pub = .ok (P.curve priv pub) := by
  unfold dh
  rw [if_neg (by omega), if_neg (by omega)]

theorem chainKdf_ok (P : Prims) {ck : Bytes} (h : ck.length = 32) :
    chainKdf P ck = .ok (P.hmac ck [0], P.hmac ck [1]) := by
  unfold chainKdf
  rw [if_neg (by omega)]

theorem rootKdf_ok (P : Prims) {rk : Bytes} (d : Bytes) (h : rk.length = 32) :
    rootKdf P rk d =
      .ok ((P.hkdf d rk [2] 64).take 32, ((P.hkdf d rk [2] 64).drop 32).take 32) := by
  unfold rootKdf
  rw [if_neg (by omega)]

theorem rkOut_len {P : Prims} (G : GoodPrims P) (d rk : Bytes) :
    ((P.hkdf d rk [2] 64).take 32).length = 32 := by
  rw [List.length_take, G.hkdfLen]
  simp

theorem ckOut_len {P : Prims} (G : GoodPrims P) (d rk : Bytes) :
    (((P.hkdf d rk [2] 64).drop 32).take 32).length = 32 := by
  rw [List.length_take, List.length_drop, G.hkdfLen]
  simp

theorem ne_nil_of_len32 {l : Bytes} (h : l.length = 32) : l ≠ [] := by
  intro hn
  rw [hn] at h
  simp at h

theorem marshalHeader_ok {dhP : Bytes} (pNo mNo : Int) (hdh : dhP.length = 32)
    (hp0 : 0 ≤ pNo) (hp1 : pNo < 4294967296) (hm0 : 0 ≤ mNo) (hm1 : mNo < 4294967296) :
    marshalHeader {dhPub := dhP, prevNo := pNo, msgNo := mNo} =
      .ok (dhP ++ be4 pNo.toNat ++ be4 mNo.toNat) := by
  unfold marshalHeader
  rw [if_neg (by dsimp only; omega), if_neg (by dsimp only; omega)]

theorem drop_drop_bytes (l : Bytes) (n m : Nat) : (l.drop n).drop m = l.drop (n + m) := by
  rw [List.drop_drop, Nat.add_comm]

theorem parseHeader_of_marshalled {dhP : Bytes} (pNo mNo : Nat) (ct : Bytes)
    (hdh : dhP.length = 32) (hp : pNo < 4294967296) (hm : mNo < 4294967296) :
    parseHeader ((dhP ++ (be4 pNo ++ be4 mNo) ++ ct).take headerLen) =
      .ok {dhPub := dhP, prevNo := (pNo : Int), msgNo := (mNo : Int)} := by
  have hh : (dhP ++ (be4 pNo ++ be4 mNo)).length = 40 := by
    simp [hdh, be4_length]
  have htake : (dhP ++ (be4 pNo ++ be4 mNo) ++ ct).take headerLen =
      dhP ++ (be4 pNo ++ be4 mNo) := by
    have e : dhP ++ (be4 pNo ++ be4 mNo) ++ ct = (dhP ++ (be4 pNo ++ be4 mNo)) ++ ct := by
      simp [List.append_assoc]
    rw [e]
    exact List.take_left' hh
  rw [htake]
  unfold parseHeader
  rw [if_neg (by rw [hh]; simp [headerLen])]
  have e1 : (dhP ++ (be4 pNo ++ be4 mNo)).take 32 = dhP := List.take_left' hdh
  have e2 : (dhP ++ (be4 pNo ++ be4 mNo)).drop 32 = be4 pNo ++ be4 mNo := List.drop_left' hdh
  have e3 : ((dhP ++ (be4 pNo ++ be4 mNo)).drop 32).take 4 = be4 pNo := by
    rw [e2]
    exact List.take_left' (be4_length pNo)
  have e4 : (dhP ++ (be4 pNo ++ be4 mNo)).drop 36 = be4 mNo := by
    have : (36 : Nat) = 32 + 4 := rfl
    rw [this, ← drop_drop_bytes, e2]
    exact List.drop_left' (be4_length pNo)
  have e5 : ((dhP ++ (be4 pNo ++ be4 mNo)).drop 36).take 4 = be4 mNo := by
    rw [e4]
    have h4 : (be4 mNo).length = 4 := be4_length mNo
    rw [← h4, List.take_length]
  rw [e1, e3, e5, parseBe4_be4 pNo hp, parseBe4_be4 mNo hm]

theorem drop_headerLen_of_marshalled {dhP : Bytes} (pNo mNo : Nat) (ct : Bytes)
    (hdh : dhP.length = 32) :
    (dhP ++ (be4 pNo ++ be4 mNo) ++ ct).drop headerLen = ct := by
  have hh : (dhP ++ (be4 pNo ++ be4 mNo)).length = 40 := by
    simp [hdh, be4_length]
  have e : dhP ++ (be4 pNo ++ be4 mNo) ++ ct = (dhP ++ (be4 pNo ++ be4 mNo)) ++ ct := by
    simp [List.append_assoc]
  rw [e]
  exact List.drop_left' hh

theorem decryptRaw_of_marshalled (P : Prims) (dr : DoubleRatchet) {dhP : Bytes}
    (fresh : Bytes) (pNo mNo : Nat) (ct : Bytes)
    (hdh : dhP.length = 32) (hp : pNo < 4294967296) (hm : mNo < 4294967296) :
    decryptRaw P dr fresh (dhP ++ (be4 pNo ++ be4 mNo) ++ ct) =
      dr.decrypt P fresh {dhPub := dhP, prevNo := (pNo : Int), msgNo := (mNo : Int)} ct := by
  unfold decryptRaw
  rw [parseHeader_of_marshalled pNo mNo ct hdh hp hm,
    drop_headerLen_of_marshalled pNo mNo ct hdh]

/-! ### Envelope codec roundtrip lemmas -/

theorem unmarshal_marshal (t : Nat) (body : Bytes) (h1 : 1 ≤ t) (h4 : t ≤ 4)
    (hB : IsBytes body) :
    unmarshalMessage (marshalMessage t body) =
      (bodyUnmarshal t body).map (fun m => (t, m)) := by
  set enc := base64Encode body with henc
  have hm : marshalMessage t body = prefixBytes ++ ([48 + t] ++ (enc ++ suffixBytes)) := by
    simp [marshalMessage, List.append_assoc]
  have hlen : (marshalMessage t body).length = 9 + enc.length := by
    rw [hm]
    simp [prefixBytes, suffixBytes]
    omega
  have htake : (marshalMessage t body).take 4 = prefixBytes := by
    rw [hm]
    exact List.take_left' rfl
  have hcombined : marshalMessage t body =
      (prefixBytes ++ [48 + t] ++ enc) ++ suffixBytes := by
    rw [hm]
    simp [List.append_assoc]
  have hdropSuf : (marshalMessage t body).drop ((marshalMessage t body).length - 4) =
      suffixBytes := by
    rw [hlen, hcombined]
    have hl : (prefixBytes ++ [48 + t] ++ enc).length = 9 + enc.length - 4 := by
      simp [prefixBytes]
      omega
    exact List.drop_left' hl
  have hdrop4 : (marshalMessage t body).drop 4 = [48 + t] ++ (enc ++ suffixBytes) := by
    rw [hm]
    exact List.drop_left' rfl
  have hhead : ((marshalMessage t body).drop 4).headD 0 = 48 + t := by
    rw [hdrop4]
    rfl
  have hdrop5 : (marshalMessage t body).drop 5 = enc ++ suffixBytes := by
    have e : marshalMessage t body = (prefixBytes ++ [48 + t]) ++ (enc ++ suffixBytes) := by
      rw [hm]
      simp [List.append_assoc]
    rw [e]
    exact List.drop_left' rfl
  have hbody : ((marshalMessage t body).drop 5).take ((marshalMessage t body).length - 9) =
      enc := by
    rw [hdrop5, hlen]
    have : 9 + enc.length - 9 = enc.length := by omega
    rw [this]
    exact List.take_left' rfl
  have htag : ((48 + t) + 256 - 48) % 256 = t := by omega
  unfold unmarshalMessage
  rw [if_pos ⟨htake, hdropSuf⟩]
  simp only [hhead, htag, hbody]
  rw [if_pos ⟨h1, h4⟩, henc, base64_roundtrip body hB]

theorem offerUnmarshal_marshal {idKey spKey spSig : Bytes}
    (h1 : idKey.length = 32) (h2 : spKey.length = 32) (h3 : spSig.length = 64) :
    offerUnmarshal (offerMarshal idKey spKey spSig) = .ok (.offer idKey spKey spSig) := by
  unfold offerMarshal
  rw [fit_eq h1, fit_eq h2, fit_eq h3]
  have hlen : (idKey ++ spKey ++ spSig).length = 128 := by
    simp [h1, h2, h3]
  unfold offerUnmarshal
  rw [if_neg (by omega)]
  have ha : idKey ++ spKey ++ spSig = idKey ++ (spKey ++ spSig) := by
    simp [List.append_assoc]
  have e1 : (idKey ++ spKey ++ spSig).take 32 = idKey := by
    rw [ha]
    exact List.take_left' h1
  have e2 : ((idKey ++ spKey ++ spSig).drop 32).take 32 = spKey := by
    rw [ha, List.drop_left' h1]
    exact List.take_left' h2
  have e3 : (idKey ++ spKey ++ spSig).drop 64 = spSig := by
    have hb : idKey ++ spKey ++ spSig = (idKey ++ spKey) ++ spSig := rfl
    rw [hb]
    exact List.drop_left' (by simp [h1, h2])
  rw [e1, e2, e3]

theorem ackUnmarshal_marshal {idKey eKey cipher : Bytes}
    (h1 : idKey.length = 32) (h2 : eKey.length = 32) (h3 : cipher ≠ []) :
    ackUnmarshal (ackMarshal idKey eKey cipher) = .ok (.ack idKey eKey cipher) := by
  unfold ackMarshal
  rw [fit_eq h1, fit_eq h2]
  have hcl : 1 ≤ cipher.length := by
    rcases cipher with _ | ⟨x, xs⟩
    · exact absurd rfl h3
    · simp
  have hlen : (idKey ++ eKey ++ cipher).length = 64 + cipher.length := by
    simp [h1, h2]
    omega
  unfold ackUnmarshal
  rw [if_neg (by omega)]
  have ha : idKey ++ eKey ++ cipher = idKey ++ (eKey ++ cipher) := by
    simp [List.append_assoc]
  have e1 : (idKey ++ eKey ++ cipher).take 32 = idKey := by
    rw [ha]
    exact List.take_left' h1
  have e2 : ((idKey ++ eKey ++ cipher).drop 32).take 32 = eKey := by
    rw [ha, List.drop_left' h1]
    exact List.take_left' h2
  have e3 : (idKey ++ eKey ++ cipher).drop 64 = cipher := by
    have hb : idKey ++ eKey ++ cipher = (idKey ++ eKey) ++ cipher := rfl
    rw [hb]
    exact List.drop_left' (by simp [h1, h2])
  rw [e1, e2, e3]

/-! ### X3DH computation and agreement lemmas -/

theorem createInitial_eq {P : Prims} (G : GoodPrims P) (aId bId spkF ekF : Bytes)
    (hspk : spkF.length = 32) (hek : ekF.length = 32) :
    createInitialMessage P aId (P.edPub bId) (P.curve spkF basepoint)
      (P.edSign bId (P.curve spkF basepoint)) ekF =
      .ok (x3dhSecret P
            (P.curve (P.edPrivToX aId) (P.curve spkF basepoint))
            (P.curve ekF (P.edPubToX (P.edPub bId)))
            (P.curve ekF (P.curve spkF basepoint)),
           P.edPub aId ++ P.edPub bId, P.curve ekF basepoint) := by
  unfold createInitialMessage
  rw [if_neg (by rw [G.signOk]; simp)]
  rw [dh_ok P (G.edPrivToXLen aId) (G.curveLen spkF basepoint)]
  rw [dh_ok P hek (G.edPubToXLen (P.edPub bId))]
  rw [dh_ok P hek (G.curveLen spkF basepoint)]

theorem receiveInitial_eq {P : Prims} (G : GoodPrims P) (aId bId spkF ekF : Bytes)
    (hspk : spkF.length = 32) (hek : ekF.length = 32) :
    receiveInitialMessage P bId (P.edPub aId) spkF (P.curve ekF basepoint) =
      .ok (x3dhSecret P
            (P.curve spkF (P.edPubToX (P.edPub aId)))
            (P.curve (P.edPrivToX bId) (P.curve ekF basepoint))
            (P.curve spkF (P.curve ekF basepoint)),
           P.edPub aId ++ P.edPub bId) := by
  unfold receiveInitialMessage
  rw [dh_ok P hspk (G.edPubToXLen (P.edPub aId))]
  rw [dh_ok P (G.edPrivToXLen bId) (G.curveLen ekF basepoint)]
  rw [dh_ok P hspk (G.curveLen ekF basepoint)]

theorem x3dh_dh1_agree {P : Prims} (G : GoodPrims P) (aId spkF : Bytes) :
    P.curve (P.edPrivToX aId) (P.curve spkF basepoint) =
      P.curve spkF (P.edPubToX (P.edPub aId)) := by
  rw [G.duality, G.curveComm]

theorem x3dh_dh2_agree {P : Prims} (G : GoodPrims P) (bId ekF : Bytes) :
    P.curve ekF (P.edPubToX (P.edPub bId)) =
      P.curve (P.edPrivToX bId) (P.curve ekF basepoint) := by
  rw [G.duality, G.curveComm]

theorem x3dh_dh3_agree {P : Prims} (G : GoodPrims P) (spkF ekF : Bytes) :
    P.curve ekF (P.curve spkF basepoint) = P.curve spkF (P.curve ekF basepoint) :=
  G.curveComm ekF spkF

/-- The X3DH session secrets computed by both sides agree. -/
theorem x3dhSecret_agree {P : Prims} (G : GoodPrims P) (aId bId spkF ekF : Bytes) :
    x3dhSecret P
      (P.curve (P.edPrivToX aId) (P.curve spkF basepoint))
      (P.curve ekF (P.edPubToX (P.edPub bId)))
      (P.curve ekF (P.curve spkF basepoint)) =
    x3dhSecret P
      (P.curve spkF (P.edPubToX (P.edPub aId)))
      (P.curve (P.edPrivToX bId) (P.curve ekF basepoint))
      (P.curve spkF (P.curve ekF basepoint)) := by
  rw [x3dh_dh2_agree G bId ekF, x3dh_dh1_agree G aId spkF, x3dh_dh3_agree G spkF ekF]

theorem chainKdf_err {P : Prims} {ck : Bytes} {e : Err} (h : chainKdf P ck = .error e) :
    e = .internalInvariant := by
  unfold chainKdf at h
  split at h
  · injection h with h1
    exact h1.symm
  · simp at h

theorem skipLoop_err (P : Prims) (untilNo : Int) :
    ∀ (fuel : Nat) (dr : DoubleRatchet) (e : Err),
      (skipLoop P dr untilNo fuel).2 = some e → e = .internalInvariant := by
  intro fuel
  induction fuel with
  | zero =>
    intro dr e h
    simp [skipLoop] at h
  | succ n ih =>
    intro dr e h
    unfold skipLoop at h
    split at h
    · rcases hck : chainKdf P (dr.chainKeyRecv.getD []) with e1 | pair
      · rw [hck] at h
        simp only at h
        injection h with h1
        rw [← h1]
        exact chainKdf_err hck
      · rw [hck] at h
        simp only at h
        exact ih _ e h
    · simp at h

/-! ### Concrete fixtures used by witnesses and counterexamples -/

def aliceId : Bytes := List.replicate 64 1

def bobId : Bytes := List.replicate 64 2

def aliceSess0 : Session := sessionInit aliceId (fun _ => true)

def bobSess0 : Session := sessionInit bobId (fun _ => true)

def aliceOffer : Session × Bytes := aliceSess0.offer testPrims (List.replicate 32 3)

def bobAckStep : Session × Except Err Bytes :=
  bobSess0.acknowledge testPrims (List.replicate 32 4) (List.replicate 32 5)
    (List.replicate 23 6) aliceOffer.2

def bobEstablished : Session := bobAckStep.1

/-! ### Claims -/

/-- Claim C8: for every 32-byte input ck, chainKdf(ck) returns the pair
(ck', mk) with ck' = HMAC-SHA256(key=ck, 0x00) and mk = HMAC-SHA256(key=ck,
0x01); every input of a different length yields an error. -/
theorem claim8_chainKdf (P : Prims) (ck : Bytes) :
    (ck.length = 32 → chainKdf P ck = .ok (P.hmac ck [0], P.hmac ck [1])) ∧
    (ck.length ≠ 32 → chainKdf P ck = .error .internalInvariant) := by
  constructor
  · intro h
    exact chainKdf_ok P h
  · intro h
    unfold chainKdf
    rw [if_pos h]

theorem claim8_chainKdf_witness :
    chainKdf testPrims (List.replicate 32 7) =
      .ok (testPrims.hmac (List.replicate 32 7) [0], testPrims.hmac (List.replicate 32 7) [1]) ∧
    chainKdf testPrims [1, 2] = .error .internalInvariant :=
  ⟨(claim8_chainKdf testPrims (List.replicate 32 7)).1 (by decide),
   (claim8_chainKdf testPrims [1, 2]).2 (by decide)⟩

theorem skipMsgKeys_overflow_iff (P : Prims) (dr : DoubleRatchet) (untilNo : Int) :
    (dr.skipMsgKeys P untilNo).2 = some .skipOverflow ↔
      maxSkip < untilNo - dr.recvNo := by
  have hms : maxSkip = (32 : Int) := rfl
  unfold DoubleRatchet.skipMsgKeys
  split
  next hguard =>
    exact ⟨fun _ => by omega, fun _ => rfl⟩
  next hguard =>
    constructor
    · intro hres
      split at hres
      · simp at hres
      · have := skipLoop_err P untilNo _ dr _ hres
        simp at this
    · intro hgt
      exact absurd hgt (by omega)

/-- Claim C7: skipMsgKeys(until) fails with a SkipOverflow-kind error
exactly when until − recvNo > maxSkip (32); consequently an incoming
message on the current chain whose counter gap exceeds the limit makes
Decrypt return that error without decrypting. -/
theorem claim7_skipOverflow (P : Prims) (dr : DoubleRatchet) (untilNo : Int)
    (h : Header) (ct fresh : Bytes) :
    ((dr.skipMsgKeys P untilNo).2 = some .skipOverflow ↔ maxSkip < untilNo - dr.recvNo) ∧
    (h.dhPub = dr.peerDhPub → maxSkip < h.msgNo - dr.recvNo →
      (dr.decrypt P fresh h ct).2 = .error .skipOverflow) := by
  refine ⟨skipMsgKeys_overflow_iff P dr untilNo, ?_⟩
  intro heq hgt
  have hms : maxSkip = (32 : Int) := rfl
  unfold DoubleRatchet.decrypt
  rw [if_neg (by simp [heq])]
  simp only
  have hlt : ¬ h.msgNo < dr.recvNo := by omega
  rw [if_neg hlt]
  have hgtNo : h.msgNo > dr.recvNo := by omega
  rw [if_pos hgtNo]
  have hov : (dr.skipMsgKeys P h.msgNo).2 = some .skipOverflow :=
    (skipMsgKeys_overflow_iff P dr h.msgNo).mpr hgt
  rcases hres : dr.skipMsgKeys P h.msgNo with ⟨dr4, e4⟩
  rw [hres] at hov
  simp only at hov
  rw [hov]

theorem claim7_witness :
    (DoubleRatchet.skipMsgKeys testPrims (CreatePassive [] [] [] []) 40).2 =
      some .skipOverflow ∧
    (DoubleRatchet.decrypt testPrims (CreatePassive [] [] [] [])
      [] {dhPub := [], prevNo := 0, msgNo := 40} []).2 = .error .skipOverflow :=
  ⟨(claim7_skipOverflow testPrims (CreatePassive [] [] [] []) 40
      {dhPub := [], prevNo := 0, msgNo := 40} [] []).1.mpr (by decide),
   (claim7_skipOverflow testPrims (CreatePassive [] [] [] []) 40
      {dhPub := [], prevNo := 0, msgNo := 40} [] []).2 rfl (by decide)⟩

/-- Claim C3: encrypt(mk, pt, ad) is the AES-256-CBC encryption (under the
key and IV derived from mk) of the PKCS#7-padded pt concatenated with the
32-byte tag HMAC-SHA256(authKey, ad); the tag depends only on mk and ad,
not on the plaintext. -/
theorem claim3_encrypt {P : Prims} (G : GoodPrims P) (mk pt pt2 ad : Bytes)
    (hmk : mk.length = 32) :
    encrypt P mk pt ad =
      .ok (P.aesEnc (encKeyOf P mk) (ivOf P mk) (padded16 pt) ++
        P.hmac (authKeyOf P mk) ad) ∧
    (∀ ct ct2, encrypt P mk pt ad = .ok ct → encrypt P mk pt2 ad = .ok ct2 →
      ct.drop (ct.length - 32) = P.hmac (authKeyOf P mk) ad ∧
      ct.drop (ct.length - 32) = ct2.drop (ct2.length - 32)) := by
  have htail : ∀ q : Bytes,
      (P.aesEnc (encKeyOf P mk) (ivOf P mk) (padded16 q) ++ P.hmac (authKeyOf P mk) ad).drop
        ((P.aesEnc (encKeyOf P mk) (ivOf P mk) (padded16 q) ++
          P.hmac (authKeyOf P mk) ad).length - 32) = P.hmac (authKeyOf P mk) ad := by
    intro q
    have hl : (P.aesEnc (encKeyOf P mk) (ivOf P mk) (padded16 q) ++
        P.hmac (authKeyOf P mk) ad).length =
        (P.aesEnc (encKeyOf P mk) (ivOf P mk) (padded16 q)).length + 32 := by
      rw [List.length_append, G.hmacLen]
    rw [hl, Nat.add_sub_cancel]
    exact List.drop_left _ _
  refine ⟨encrypt_eq P mk pt ad hmk, ?_⟩
  intro ct ct2 hct hct2
  rw [encrypt_eq P mk pt ad hmk] at hct
  rw [encrypt_eq P mk pt2 ad hmk] at hct2
  injection hct with hct
  injection hct2 with hct2
  rw [← hct, ← hct2, htail pt, htail pt2]
  exact ⟨rfl, rfl⟩

theorem claim3_witness :
    encrypt testPrims (List.replicate 32 0) [1, 2, 3] [7] =
      .ok (testPrims.aesEnc (encKeyOf testPrims (List.replicate 32 0))
        (ivOf testPrims (List.replicate 32 0)) (padded16 [1, 2, 3]) ++
        testPrims.hmac (authKeyOf testPrims (List.replicate 32 0)) [7]) :=
  (claim3_encrypt testPrims_good (List.replicate 32 0) [1, 2, 3] [] [7] (by decide)).1

/-- Claim C10: after Close() on a session in any state, Offer() succeeds,
emits a fresh offer message, and stores new SPK material, so the session
object can be reused for a new handshake. -/
theorem claim10_offer_after_close (P : Prims) (s : Session) (spkFresh : Bytes) :
    ((s.close).1.offer P spkFresh).2 =
      marshalMessage 1 (offerMarshal (P.edPub s.idKey) (P.curve spkFresh basepoint)
        (P.edSign s.idKey (P.curve spkFresh basepoint))) ∧
    ((s.close).1.offer P spkFresh).1.spkPub = some (P.curve spkFresh basepoint) ∧
    ((s.close).1.offer P spkFresh).1.spkPriv = some spkFresh ∧
    ((s.close).1.offer P spkFresh).1.dr = none :=
  ⟨rfl, rfl, rfl, rfl⟩

/-- Claim C5 (amended): after Close() every subsequent Send fails with an
UnexpectedMessage-kind error; Receive of a close message, however, only
reports the isClosed flag and leaves the session state untouched, so Send
still succeeds afterwards (the caller must invoke Close itself, as the
Receive documentation demands). -/
theorem claim5_send_after_close (P : Prims) (s : Session) (fresh pt : Bytes) :
    ((s.close).1.send P fresh pt).2 = .error .unexpectedMessage := rfl

/-- Claim C5 counterexample: an established session that processes a close
message through Receive reports isClosed, yet a subsequent Send succeeds —
Receive(close) does not terminate the session. -/
theorem claim5_counterexample :
    (bobEstablished.receive testPrims [] (marshalMessage 4 [255])).isClosed = true ∧
    (bobEstablished.receive testPrims [] (marshalMessage 4 [255])).err = none ∧
    ((bobEstablished.receive testPrims [] (marshalMessage 4 [255])).sess.send
      testPrims [] [1, 2]).2.isOk = true := by
  refine ⟨rfl, rfl, rfl⟩

/-- Claim C9 (amended): a data envelope unmarshals successfully for every
body length — dataMessage.UnmarshalBinary stores the body without any
length validation, so bodies shorter than HEADER_LEN + 16 + 32 are
accepted rather than rejected as Malformed. -/
theorem claim9_data_no_length_check (body : Bytes) (hB : IsBytes body)
    (hshort : body.length < headerLen + 16 + 32) :
    unmarshalMessage (marshalMessage 3 body) = .ok (3, .data body) := by
  rw [unmarshal_marshal 3 body (by omega) (by omega) hB]
  rfl

theorem claim9_witness : unmarshalMessage (marshalMessage 3 [9]) = .ok (3, .data [9]) :=
  claim9_data_no_length_check [9] (by decide) (by decide)

/-- Claim C9 counterexample: the data envelope with an empty body (far
shorter than HEADER_LEN + 16 + 32) unmarshals successfully instead of
failing with a Malformed-kind error. -/
theorem claim9_counterexample :
    unmarshalMessage (prefixBytes ++ [51] ++ suffixBytes) = .ok (3, .data []) := rfl

/-- Claim C2: for every honest X3DH handshake between two identity key
pairs, the 32-byte session secret and the associated data computed by
CreateInitialMessage equal those computed by ReceiveInitialMessage. -/
theorem claim2_x3dh_agreement {P : Prims} (G : GoodPrims P)
    (aId bId spkFresh ekFresh : Bytes)
    (hspk : spkFresh.length = 32) (hek : ekFresh.length = 32) :
    ∃ sk ad ekPub,
      createInitialMessage P aId (P.edPub bId) (createNewSpk P bId spkFresh).1
        (createNewSpk P bId spkFresh).2.2 ekFresh = .ok (sk, ad, ekPub) ∧
      receiveInitialMessage P bId (P.edPub aId) (createNewSpk P bId spkFresh).2.1 ekPub =
        .ok (sk, ad) ∧
      sk.length = 32 := by
  have e : createNewSpk P bId spkFresh =
      (P.curve spkFresh basepoint, spkFresh, P.edSign bId (P.curve spkFresh basepoint)) := rfl
  rw [e]
  refine ⟨_, _, _, createInitial_eq G aId bId spkFresh ekFresh hspk hek, ?_, ?_⟩
  · rw [receiveInitial_eq G aId bId spkFresh ekFresh hspk hek,
      x3dhSecret_agree G aId bId spkFresh ekFresh]
  · exact G.hkdfLen _ _ _ _

theorem claim2_witness :
    ∃ sk ad ekPub,
      createInitialMessage testPrims aliceId (testPrims.edPub bobId)
        (createNewSpk testPrims bobId (List.replicate 32 3)).1
        (createNewSpk testPrims bobId (List.replicate 32 3)).2.2 (List.replicate 32 4) =
        .ok (sk, ad, ekPub) ∧
      receiveInitialMessage testPrims bobId (testPrims.edPub aliceId)
        (createNewSpk testPrims bobId (List.replicate 32 3)).2.1 ekPub = .ok (sk, ad) ∧
      sk.length = 32 :=
  claim2_x3dh_agreement testPrims_good aliceId bobId (List.replicate 32 3)
    (List.replicate 32 4) (by decide) (by decide)

/-- Claim C4 (amended): the session state is unchanged whenever Receive
fails before reaching a ratchet decryption — on unmarshalling failures, on
unexpected message types (offer), on an ack while a ratchet already
exists, on a rejected peer, on a failing X3DH, and on a data message
before establishment.  (A failure inside the ack or data decryption path
leaves mutated state; see the counterexample.) -/
theorem claim4_receive_unchanged_cases (P : Prims) (s : Session) (fresh msg : Bytes) :
    (∀ e, unmarshalMessage msg = .error e →
      (s.receive P fresh msg).sess = s ∧ (s.receive P fresh msg).err = some e) ∧
    (∀ t a b c, unmarshalMessage msg = .ok (t, .offer a b c) →
      (s.receive P fresh msg).sess = s ∧
      (s.receive P fresh msg).err = some .unexpectedMessage) ∧
    (∀ t a b c, unmarshalMessage msg = .ok (t, .ack a b c) → s.dr ≠ none →
      (s.receive P fresh msg).sess = s ∧
      (s.receive P fresh msg).err = some .unexpectedMessage) ∧
    (∀ t a b c, unmarshalMessage msg = .ok (t, .ack a b c) → s.dr = none →
      s.verifyPeer a = false →
      (s.receive P fresh msg).sess = s ∧ (s.receive P fresh msg).err = some .peerRejected) ∧
    (∀ t a b c e, unmarshalMessage msg = .ok (t, .ack a b c) → s.dr = none →
      s.verifyPeer a = true →
      receiveInitialMessage P s.idKey a (s.spkPriv.getD []) b = .error e →
      (s.receive P fresh msg).sess = s ∧ (s.receive P fresh msg).err = some e) ∧
    (∀ t raw, unmarshalMessage msg = .ok (t, .data raw) → s.dr = none →
      (s.receive P fresh msg).sess = s ∧
      (s.receive P fresh msg).err = some .unexpectedMessage) := by
  refine ⟨?_, ?_, ?_, ?_, ?_, ?_⟩
  · intro e he
    unfold Session.receive
    rw [he]
    exact ⟨rfl, rfl⟩
  · intro t a b c he
    unfold Session.receive
    rw [he]
    exact ⟨rfl, rfl⟩
  · intro t a b c he hdr
    unfold Session.receive
    rw [he]
    simp only
    unfold Session.receiveAck
    rw [if_pos hdr]
    exact ⟨rfl, rfl⟩
  · intro t a b c he hdr hv
    unfold Session.receive
    rw [he]
    simp only
    unfold Session.receiveAck
    rw [if_neg (by simp [hdr]), if_pos (by simp [hv])]
    exact ⟨rfl, rfl⟩
  · intro t a b c e he hdr hv hx
    unfold Session.receive
    rw [he]
    simp only
    unfold Session.receiveAck
    rw [if_neg (by simp [hdr]), if_neg (by simp [hv]), hx]
    exact ⟨rfl, rfl⟩
  · intro t raw he hdr
    unfold Session.receive
    rw [he]
    simp only
    unfold Session.receiveData
    rw [hdr]
    exact ⟨rfl, rfl⟩

theorem claim4_witness :
    ((sessionInit [] (fun _ => true)).receive testPrims [] []).sess =
      sessionInit [] (fun _ => true) ∧
    ((sessionInit [] (fun _ => true)).receive testPrims [] []).err = some .malformed :=
  (claim4_receive_unchanged_cases testPrims (sessionInit [] (fun _ => true)) [] []).1
    .malformed rfl

/-- A syntactically valid acknowledge envelope whose inner ciphertext is a
single byte, so that the ratchet decryption step must fail. -/
def bogusAck : Bytes :=
  marshalMessage 2 (ackMarshal (testPrims.edPub bobId) (fit 32 [42]) [0])

/-- A ratchet with an established receiving chain, no cached skipped keys
and recvNo = 0, about to receive message number 2 of the current chain
with an undecryptable ciphertext. -/
def preDecryptDr : DoubleRatchet :=
  { associatedData := []
    dhr := { rootKey := List.replicate 32 0, dhPub := [], dhPriv := []
             peerDhPub := [], isActive := false, isInitialized := false }
    peerDhPub := List.replicate 32 11
    chainKeySend := none
    chainKeyRecv := some (List.replicate 32 9)
    sendNo := 0
    recvNo := 0
    prevSendNo := 0
    skippedMsgKeys := [] }

/-- Claim C4 counterexample: a session in the OfferSent state receiving an
acknowledge whose initial ciphertext cannot be decrypted gets an error
from Receive, yet its state has changed: the Double Ratchet has been
installed and the SPK private material erased.  Likewise inside
DoubleRatchet.Decrypt itself: decrypting message number 2 of the current
chain with an undecryptable ciphertext fails, yet the returned ratchet
has cached two skipped message keys and incremented recvNo to 3. -/
theorem claim4_counterexample :
    (aliceOffer.1.receive testPrims [] bogusAck).err = some .malformed ∧
    (aliceOffer.1.receive testPrims [] bogusAck).sess.dr.isSome = true ∧
    aliceOffer.1.dr = none ∧
    (aliceOffer.1.receive testPrims [] bogusAck).sess.spkPriv = none ∧
    aliceOffer.1.spkPriv = some (List.replicate 32 3) ∧
    (preDecryptDr.decrypt testPrims []
      {dhPub := List.replicate 32 11, prevNo := 0, msgNo := 2} [0]).2 =
      .error .malformed ∧
    (preDecryptDr.decrypt testPrims []
      {dhPub := List.replicate 32 11, prevNo := 0, msgNo := 2} [0]).1.recvNo = 3 ∧
    preDecryptDr.recvNo = 0 ∧
    totalSkipped (preDecryptDr.decrypt testPrims []
      {dhPub := List.replicate 32 11, prevNo := 0, msgNo := 2} [0]).1.skippedMsgKeys = 2 ∧
    preDecryptDr.skippedMsgKeys = [] :=
  ⟨rfl, rfl, rfl, rfl, rfl, rfl, rfl, rfl, rfl, rfl⟩

/-- A ratchet state whose skipped-key buffer already holds 8 chains of 32
cached keys each (256 keys in total, the shape left by 8 DH-ratchet steps
that each skipped the full window), about to cache keys for a ninth,
previously-unseen peer DH public key. -/
def pkOf (i : Nat) : Bytes := fit 32 [100 + i]

def fullBufferDr : DoubleRatchet :=
  { associatedData := []
    dhr := { rootKey := List.replicate 32 0, dhPub := [], dhPriv := []
             peerDhPub := [], isActive := false, isInitialized := false }
    peerDhPub := pkOf 8
    chainKeySend := none
    chainKeyRecv := some (List.replicate 32 9)
    sendNo := 0
    recvNo := 0
    prevSendNo := 0
    skippedMsgKeys := (List.range 8).map
      (fun i => (pkOf i, (List.range 32).map (fun j => ((j : Int), [7])))) }

/-! ### Values arising in an honest handshake (used to state the staged
roundtrip lemmas for claim C1) -/

/-- The send chain key produced by the active side's initial DH step. -/
def sendCk0 (P : Prims) (sk spkPub drF : Bytes) : Bytes :=
  ((P.hkdf (P.curve drF spkPub) sk [2] 64).drop 32).take 32

/-- The root key after the active side's initial DH step. -/
def rk1of (P : Prims) (sk spkPub drF : Bytes) : Bytes :=
  (P.hkdf (P.curve drF spkPub) sk [2] 64).take 32

/-- The first message key of the active side's send chain. -/
def mk0of (P : Prims) (sk spkPub drF : Bytes) : Bytes :=
  P.hmac (sendCk0 P sk spkPub drF) [1]

/-- The AEAD ciphertext of the active side's first message. -/
def aead0 (P : Prims) (sk spkPub drF ad payload : Bytes) : Bytes :=
  P.aesEnc (encKeyOf P (mk0of P sk spkPub drF)) (ivOf P (mk0of P sk spkPub drF))
      (padded16 payload) ++
    P.hmac (authKeyOf P (mk0of P sk spkPub drF)) ad

/-- The active ratchet's state after encrypting its first message. -/
def activeAfterFirstSend (P : Prims) (sk ad spkPub drF : Bytes) : DoubleRatchet :=
  { associatedData := ad
    dhr := { rootKey := rk1of P sk spkPub drF
             dhPub := P.curve drF basepoint
             dhPriv := drF
             peerDhPub := spkPub
             isActive := true
             isInitialized := true }
    peerDhPub := spkPub
    chainKeySend := some (P.hmac (sendCk0 P sk spkPub drF) [0])
    chainKeyRecv := none
    sendNo := 1
    recvNo := 0
    prevSendNo := 0
    skippedMsgKeys := [] }

theorem rootKdf_named (P : Prims) (sk spkPub drF : Bytes) (hsk : sk.length = 32) :
    rootKdf P sk (P.curve drF spkPub) = .ok (rk1of P sk spkPub drF, sendCk0 P sk spkPub drF) :=
  rootKdf_ok P (P.curve drF spkPub) hsk

theorem chainKdf_sendCk0 {P : Prims} (G : GoodPrims P) (sk spkPub drF : Bytes) :
    chainKdf P (sendCk0 P sk spkPub drF) =
      .ok (P.hmac (sendCk0 P sk spkPub drF) [0], mk0of P sk spkPub drF) :=
  chainKdf_ok P (ckOut_len G _ _)

theorem encrypt_mk0 {P : Prims} (G : GoodPrims P) (sk spkPub drF ad payload : Bytes) :
    encrypt P (mk0of P sk spkPub drF) payload ad = .ok (aead0 P sk spkPub drF ad payload) :=
  encrypt_eq P (mk0of P sk spkPub drF) payload ad (G.hmacLen _ _)

theorem encryptRaw_createActive {P : Prims} (G : GoodPrims P)
    (sk ad spkPub drF payload : Bytes)
    (hsk : sk.length = 32) (hdrF : drF.length = 32) (hspkPub : spkPub.length = 32) :
    encryptRaw P (CreateActive P sk ad spkPub drF) [] payload =
      (activeAfterFirstSend P sk ad spkPub drF,
       .ok (P.curve drF basepoint ++ (be4 0 ++ (be4 0 ++
         aead0 P sk spkPub drF ad payload)))) := by
  unfold encryptRaw DoubleRatchet.encrypt CreateActive dhRatchetActive
    DoubleRatchet.dhStep DhRatchet.step
  simp [dh_ok P hdrF hspkPub, rootKdf_named P sk spkPub drF hsk,
    chainKdf_sendCk0 G sk spkPub drF, encrypt_mk0 G sk spkPub drF ad payload,
    marshalHeader_ok 0 0 (G.curveLen drF basepoint) (by omega) (by omega) (by omega)
      (by omega),
    Except.map, activeAfterFirstSend]

/-- The receive-chain DH value computed by the passive side on the first
incoming message. -/
def recvDhA (P : Prims) (spkF drF : Bytes) : Bytes :=
  P.curve spkF (P.curve drF basepoint)

/-- The root key after the passive side's receive half-step. -/
def rkA1of (P : Prims) (sk spkF drF : Bytes) : Bytes :=
  (P.hkdf (recvDhA P spkF drF) sk [2] 64).take 32

/-- The passive side's receive chain key. -/
def recvCkA (P : Prims) (sk spkF drF : Bytes) : Bytes :=
  ((P.hkdf (recvDhA P spkF drF) sk [2] 64).drop 32).take 32

/-- The send-chain DH value computed by the passive side with its fresh
DH pair. -/
def sendDhA (P : Prims) (freshA drF : Bytes) : Bytes :=
  P.curve freshA (P.curve drF basepoint)

/-- The root key after the passive side's send half-step. -/
def rkA2of (P : Prims) (sk spkF drF freshA : Bytes) : Bytes :=
  (P.hkdf (sendDhA P freshA drF) (rkA1of P sk spkF drF) [2] 64).take 32

/-- The passive side's send chain key. -/
def sendCkA (P : Prims) (sk spkF drF freshA : Bytes) : Bytes :=
  ((P.hkdf (sendDhA P freshA drF) (rkA1of P sk spkF drF) [2] 64).drop 32).take 32

/-- The passive ratchet's state after decrypting the initial message. -/
def passiveAfterAck (P : Prims) (sk ad spkF drF freshA : Bytes) : DoubleRatchet :=
  { associatedData := ad
    dhr := { rootKey := rkA2of P sk spkF drF freshA
             dhPub := P.curve freshA basepoint
             dhPriv := freshA
             peerDhPub := P.curve drF basepoint
             isActive := false
             isInitialized := false }
    peerDhPub := P.curve drF basepoint
    chainKeySend := some (sendCkA P sk spkF drF freshA)
    chainKeyRecv := some (P.hmac (recvCkA P sk spkF drF) [0])
    sendNo := 0
    recvNo := 1
    prevSendNo := 0
    skippedMsgKeys := [] }

theorem rootKdf_recvA (P : Prims) (sk spkF drF : Bytes) (hsk : sk.length = 32) :
    rootKdf P sk (P.curve spkF (P.curve drF basepoint)) =
      .ok (rkA1of P sk spkF drF, recvCkA P sk spkF drF) :=
  rootKdf_ok P _ hsk

theorem rootKdf_sendA {P : Prims} (G : GoodPrims P) (sk spkF drF freshA : Bytes) :
    rootKdf P (rkA1of P sk spkF drF) (P.curve freshA (P.curve drF basepoint)) =
      .ok (rkA2of P sk spkF drF freshA, sendCkA P sk spkF drF freshA) :=
  rootKdf_ok P _ (rkOut_len G _ _)

theorem recvCkA_eq_sendCk0 {P : Prims} (G : GoodPrims P) (sk spkF drF : Bytes) :
    recvCkA P sk spkF drF = sendCk0 P sk (P.curve spkF basepoint) drF := by
  unfold recvCkA sendCk0 recvDhA
  rw [G.curveComm]

theorem decrypt_aead0 {P : Prims} (G : GoodPrims P) (sk spkPub drF ad payload : Bytes) :
    decrypt P (mk0of P sk spkPub drF) (aead0 P sk spkPub drF ad payload) ad = .ok payload :=
  decrypt_encrypt G _ payload ad (G.hmacLen _ _)

theorem skipMsgKeys_noRecvChain (P : Prims) (dr : DoubleRatchet) (untilNo : Int)
    (hg : ¬ dr.recvNo + maxSkip < untilNo) (hnone : dr.chainKeyRecv = none) :
    dr.skipMsgKeys P untilNo = (dr, none) := by
  unfold DoubleRatchet.skipMsgKeys
  rw [if_neg hg, if_pos hnone]

theorem decryptRaw_of_marshalled2 (P : Prims) (dr : DoubleRatchet) {dhP : Bytes}
    (fresh : Bytes) (pNo mNo : Nat) (ct : Bytes)
    (hdh : dhP.length = 32) (hp : pNo < 4294967296) (hm : mNo < 4294967296) :
    decryptRaw P dr fresh (dhP ++ (be4 pNo ++ (be4 mNo ++ ct))) =
      dr.decrypt P fresh {dhPub := dhP, prevNo := (pNo : Int), msgNo := (mNo : Int)} ct := by
  have e : dhP ++ (be4 pNo ++ (be4 mNo ++ ct)) = dhP ++ (be4 pNo ++ be4 mNo) ++ ct := by
    simp [List.append_assoc]
  rw [e]
  exact decryptRaw_of_marshalled P dr fresh pNo mNo ct hdh hp hm

theorem decryptRaw_passive_ack {P : Prims} (G : GoodPrims P)
    (sk ad spkF drF freshA payload : Bytes)
    (hsk : sk.length = 32) (hspk : spkF.length = 32) (hdrF : drF.length = 32)
    (hfA : freshA.length = 32) :
    decryptRaw P (CreatePassive sk ad (P.curve spkF basepoint) spkF) freshA
      (P.curve drF basepoint ++ (be4 0 ++ (be4 0 ++
        aead0 P sk (P.curve spkF basepoint) drF ad payload))) =
      (passiveAfterAck P sk ad spkF drF freshA, .ok payload) := by
  rw [decryptRaw_of_marshalled2 P _ freshA 0 0 _ (G.curveLen drF basepoint) (by omega)
    (by omega)]
  unfold DoubleRatchet.decrypt CreatePassive dhRatchetPassive
  simp [ne_nil_of_len32 (G.curveLen drF basepoint), skipMsgKeys_noRecvChain,
    DoubleRatchet.dhStep, DhRatchet.step, dh_ok P hspk (G.curveLen drF basepoint),
    rootKdf_recvA P sk spkF drF hsk, dh_ok P hfA (G.curveLen drF basepoint),
    rootKdf_sendA G sk spkF drF freshA, recvCkA_eq_sendCk0 G sk spkF drF,
    chainKdf_sendCk0 G sk (P.curve spkF basepoint) drF,
    decrypt_aead0 G sk (P.curve spkF basepoint) drF ad payload, passiveAfterAck, maxSkip]

/-- The session secret as computed by the acknowledging side. -/
def hsSk (P : Prims) (aId bId spkF ekF : Bytes) : Bytes :=
  x3dhSecret P (P.curve (P.edPrivToX bId) (P.curve spkF basepoint))
    (P.curve ekF (P.edPubToX (P.edPub aId)))
    (P.curve ekF (P.curve spkF basepoint))

/-- The shared associated data: acknowledger's identity public key followed
by the offerer's. -/
def hsAd (P : Prims) (aId bId : Bytes) : Bytes := P.edPub bId ++ P.edPub aId

theorem hsSk_len {P : Prims} (G : GoodPrims P) (aId bId spkF ekF : Bytes) :
    (hsSk P aId bId spkF ekF).length = 32 :=
  G.hkdfLen _ _ _ _

theorem createInitial_hs {P : Prims} (G : GoodPrims P) (aId bId spkF ekF : Bytes)
    (hspk : spkF.length = 32) (hek : ekF.length = 32) :
    createInitialMessage P bId (P.edPub aId) (P.curve spkF basepoint)
      (P.edSign aId (P.curve spkF basepoint)) ekF =
      .ok (hsSk P aId bId spkF ekF, hsAd P aId bId, P.curve ekF basepoint) :=
  createInitial_eq G bId aId spkF ekF hspk hek

theorem receiveInitial_hs {P : Prims} (G : GoodPrims P) (aId bId spkF ekF : Bytes)
    (hspk : spkF.length = 32) (hek : ekF.length = 32) :
    receiveInitialMessage P aId (P.edPub bId) spkF (P.curve ekF basepoint) =
      .ok (hsSk P aId bId spkF ekF, hsAd P aId bId) := by
  rw [receiveInitial_eq G bId aId spkF ekF hspk hek, ← x3dhSecret_agree G bId aId spkF ekF]
  rfl

/-- The initial ciphertext carried inside the acknowledge message. -/
def ackCipherOf (P : Prims) (aId bId spkF ekF drF payload : Bytes) : Bytes :=
  P.curve drF basepoint ++ (be4 0 ++ (be4 0 ++
    aead0 P (hsSk P aId bId spkF ekF) (P.curve spkF basepoint) drF (hsAd P aId bId) payload))

/-- The offer envelope emitted by the offering side. -/
def offerEnvOf (P : Prims) (aId spkF : Bytes) : Bytes :=
  marshalMessage 1 (offerMarshal (P.edPub aId) (P.curve spkF basepoint)
    (P.edSign aId (P.curve spkF basepoint)))

/-- The acknowledge envelope emitted by the acknowledging side. -/
def ackEnvOf (P : Prims) (aId bId spkF ekF drF payload : Bytes) : Bytes :=
  marshalMessage 2 (ackMarshal (P.edPub bId) (P.curve ekF basepoint)
    (ackCipherOf P aId bId spkF ekF drF payload))

theorem offer_eq (P : Prims) (aId spkF : Bytes) (vA : Bytes → Bool) :
    (sessionInit aId vA).offer P spkF =
      ({ idKey := aId, verifyPeer := vA, spkPub := some (P.curve spkF basepoint),
         spkPriv := some spkF, dr := none }, offerEnvOf P aId spkF) := rfl

theorem unmarshal_offer_env {P : Prims} (G : GoodPrims P) (aId spkF : Bytes) :
    unmarshalMessage (offerEnvOf P aId spkF) =
      .ok (1, .offer (P.edPub aId) (P.curve spkF basepoint)
        (P.edSign aId (P.curve spkF basepoint))) := by
  unfold offerEnvOf
  rw [unmarshal_marshal 1 _ (by omega) (by omega)
    (show IsBytes (offerMarshal (P.edPub aId) (P.curve spkF basepoint)
        (P.edSign aId (P.curve spkF basepoint))) from
      isBytes_append (isBytes_append (isBytes_fit (G.edPubBytes aId))
        (isBytes_fit (G.curveBytes _ _))) (isBytes_fit (G.edSignBytes _ _)))]
  unfold bodyUnmarshal
  rw [if_pos rfl,
    offerUnmarshal_marshal (G.edPubLen aId) (G.curveLen _ _) (G.edSignLen _ _)]
  rfl

theorem acknowledge_eq {P : Prims} (G : GoodPrims P) (aId bId spkF ekF drF payload : Bytes)
    (vB : Bytes → Bool) (hvB : vB (P.edPub aId) = true)
    (hspk : spkF.length = 32) (hek : ekF.length = 32) (hdrF : drF.length = 32) :
    (sessionInit bId vB).acknowledge P ekF drF payload (offerEnvOf P aId spkF) =
    ({ idKey := bId, verifyPeer := vB, spkPub := none, spkPriv := none,
       dr := some (activeAfterFirstSend P (hsSk P aId bId spkF ekF) (hsAd P aId bId)
         (P.curve spkF basepoint) drF) },
     .ok (ackEnvOf P aId bId spkF ekF drF payload)) := by
  unfold Session.acknowledge sessionInit
  rw [unmarshal_offer_env G aId spkF]
  simp [hvB, createInitial_hs G aId bId spkF ekF hspk hek,
    encryptRaw_createActive G (hsSk P aId bId spkF ekF) (hsAd P aId bId)
      (P.curve spkF basepoint) drF payload (hsSk_len G aId bId spkF ekF) hdrF
      (G.curveLen spkF basepoint),
    ackEnvOf, ackCipherOf]

theorem isBytes_padded16 {p : Bytes} (hp : IsBytes p) : IsBytes (padded16 p) :=
  isBytes_append hp (isBytes_replicate (by omega))

theorem isBytes_aead0 {P : Prims} (G : GoodPrims P) (sk spkPub drF ad payload : Bytes)
    (hp : IsBytes payload) : IsBytes (aead0 P sk spkPub drF ad payload) :=
  isBytes_append (G.aesBytes _ _ _ (isBytes_padded16 hp)) (G.hmacBytes _ _)

theorem isBytes_ackCipher {P : Prims} (G : GoodPrims P)
    (aId bId spkF ekF drF payload : Bytes) (hp : IsBytes payload) :
    IsBytes (ackCipherOf P aId bId spkF ekF drF payload) :=
  isBytes_append (G.curveBytes _ _) (isBytes_append (isBytes_be4 0)
    (isBytes_append (isBytes_be4 0) (isBytes_aead0 G _ _ _ _ _ hp)))

theorem ackCipher_ne_nil {P : Prims} (G : GoodPrims P)
    (aId bId spkF ekF drF payload : Bytes) :
    ackCipherOf P aId bId spkF ekF drF payload ≠ [] := by
  unfold ackCipherOf
  intro h
  have hl := congrArg List.length h
  rw [List.length_append, G.curveLen] at hl
  simp at hl

theorem unmarshal_ack_env {P : Prims} (G : GoodPrims P)
    (aId bId spkF ekF drF payload : Bytes) (hp : IsBytes payload) :
    unmarshalMessage (ackEnvOf P aId bId spkF ekF drF payload) =
      .ok (2, .ack (P.edPub bId) (P.curve ekF basepoint)
        (ackCipherOf P aId bId spkF ekF drF payload)) := by
  unfold ackEnvOf
  rw [unmarshal_marshal 2 _ (by omega) (by omega)
    (show IsBytes (ackMarshal (P.edPub bId) (P.curve ekF basepoint)
        (ackCipherOf P aId bId spkF ekF drF payload)) from
      isBytes_append (isBytes_append (isBytes_fit (G.edPubBytes bId))
        (isBytes_fit (G.curveBytes _ _))) (isBytes_ackCipher G aId bId spkF ekF drF payload hp))]
  unfold bodyUnmarshal
  rw [if_neg (by omega), if_pos rfl,
    ackUnmarshal_marshal (G.edPubLen bId) (G.curveLen _ _)
      (ackCipher_ne_nil G aId bId spkF ekF drF payload)]
  rfl

theorem receive_ack_established {P : Prims} (G : GoodPrims P)
    (aId bId spkF ekF drF payload freshA : Bytes) (vA : Bytes → Bool)
    (hvA : vA (P.edPub bId) = true)
    (hspk : spkF.length = 32) (hek : ekF.length = 32) (hdrF : drF.length = 32)
    (hfA : freshA.length = 32) (hp : IsBytes payload) :
    Session.receive P
      { idKey := aId, verifyPeer := vA, spkPub := some (P.curve spkF basepoint),
        spkPriv := some spkF, dr := none }
      freshA (ackEnvOf P aId bId spkF ekF drF payload) =
    { sess :=
        { idKey := aId
          verifyPeer := vA
          spkPub := none
          spkPriv := none
          dr := some (passiveAfterAck P (hsSk P aId bId spkF ekF) (hsAd P aId bId)
            spkF drF freshA) }
      isEstablished := true
      isClosed := false
      plaintext := []
      err := none } := by
  unfold Session.receive
  rw [unmarshal_ack_env G aId bId spkF ekF drF payload hp]
  unfold Session.receiveAck
  simp [hvA, receiveInitial_hs G aId bId spkF ekF hspk hek, ackCipherOf,
    decryptRaw_passive_ack G (hsSk P aId bId spkF ekF) (hsAd P aId bId) spkF drF freshA
      payload (hsSk_len G aId bId spkF ekF) hspk hdrF hfA]

/-- The first message key of the passive side's send chain. -/
def mkA0of (P : Prims) (sk spkF drF freshA : Bytes) : Bytes :=
  P.hmac (sendCkA P sk spkF drF freshA) [1]

/-- The AEAD ciphertext of the passive side's first outgoing message. -/
def aeadA (P : Prims) (sk spkF drF freshA ad p : Bytes) : Bytes :=
  P.aesEnc (encKeyOf P (mkA0of P sk spkF drF freshA)) (ivOf P (mkA0of P sk spkF drF freshA))
      (padded16 p) ++
    P.hmac (authKeyOf P (mkA0of P sk spkF drF freshA)) ad

/-- The data envelope for the passive side's first outgoing message. -/
def dataEnvOf (P : Prims) (sk spkF drF freshA ad p : Bytes) : Bytes :=
  marshalMessage 3 (P.curve freshA basepoint ++ (be4 0 ++ (be4 0 ++
    aeadA P sk spkF drF freshA ad p)))

theorem chainKdf_sendCkA {P : Prims} (G : GoodPrims P) (sk spkF drF freshA : Bytes) :
    chainKdf P (sendCkA P sk spkF drF freshA) =
      .ok (P.hmac (sendCkA P sk spkF drF freshA) [0], mkA0of P sk spkF drF freshA) :=
  chainKdf_ok P (ckOut_len G _ _)

theorem encrypt_mkA0 {P : Prims} (G : GoodPrims P) (sk spkF drF freshA ad p : Bytes) :
    encrypt P (mkA0of P sk spkF drF freshA) p ad = .ok (aeadA P sk spkF drF freshA ad p) :=
  encrypt_eq P _ p ad (G.hmacLen _ _)

theorem decrypt_aeadA {P : Prims} (G : GoodPrims P) (sk spkF drF freshA ad p : Bytes) :
    decrypt P (mkA0of P sk spkF drF freshA) (aeadA P sk spkF drF freshA ad p) ad = .ok p :=
  decrypt_encrypt G _ p ad (G.hmacLen _ _)

theorem send_after_ack {P : Prims} (G : GoodPrims P)
    (aId sk ad spkF drF freshA freshS p : Bytes) (vA : Bytes → Bool) :
    (Session.send P
      { idKey := aId, verifyPeer := vA, spkPub := none, spkPriv := none,
        dr := some (passiveAfterAck P sk ad spkF drF freshA) } freshS p).2 =
      .ok (dataEnvOf P sk spkF drF freshA ad p) := by
  unfold Session.send encryptRaw DoubleRatchet.encrypt passiveAfterAck
  simp [chainKdf_sendCkA G sk spkF drF freshA, encrypt_mkA0 G sk spkF drF freshA ad p,
    marshalHeader_ok 0 0 (G.curveLen freshA basepoint) (by omega) (by omega) (by omega)
      (by omega),
    Except.map, dataEnvOf, aeadA]

theorem rk1of_eq_rkA1of {P : Prims} (G : GoodPrims P) (sk spkF drF : Bytes) :
    rk1of P sk (P.curve spkF basepoint) drF = rkA1of P sk spkF drF := by
  unfold rk1of rkA1of recvDhA
  rw [G.curveComm]

theorem rootKdf_recvB2 {P : Prims} (G : GoodPrims P) (sk spkF drF freshA : Bytes) :
    rootKdf P (rk1of P sk (P.curve spkF basepoint) drF)
      (P.curve drF (P.curve freshA basepoint)) =
      .ok (rkA2of P sk spkF drF freshA, sendCkA P sk spkF drF freshA) := by
  have e : P.curve drF (P.curve freshA basepoint) = P.curve freshA (P.curve drF basepoint) :=
    G.curveComm drF freshA
  rw [rk1of_eq_rkA1of G sk spkF drF, e]
  exact rootKdf_sendA G sk spkF drF freshA

theorem rkA2of_len {P : Prims} (G : GoodPrims P) (sk spkF drF freshA : Bytes) :
    (rkA2of P sk spkF drF freshA).length = 32 :=
  rkOut_len G _ _

theorem rootKdf_sendB {P : Prims} (G : GoodPrims P) (sk spkF drF freshA d : Bytes) :
    rootKdf P (rkA2of P sk spkF drF freshA) d =
      .ok ((P.hkdf d (rkA2of P sk spkF drF freshA) [2] 64).take 32,
        ((P.hkdf d (rkA2of P sk spkF drF freshA) [2] 64).drop 32).take 32) :=
  rootKdf_ok P d (rkA2of_len G sk spkF drF freshA)

theorem receive_data_roundtrip {P : Prims} (G : GoodPrims P)
    (bId sk ad spkF drF freshA freshB p : Bytes) (vB : Bytes → Bool)
    (hsk : sk.length = 32) (hdrF : drF.length = 32) (hfB : freshB.length = 32)
    (hp : IsBytes p)
    (hne : P.curve freshA basepoint ≠ P.curve spkF basepoint) :
    Session.receive P
      { idKey := bId, verifyPeer := vB, spkPub := none, spkPriv := none,
        dr := some (activeAfterFirstSend P sk ad (P.curve spkF basepoint) drF) }
      freshB (dataEnvOf P sk spkF drF freshA ad p) =
    { sess := (Session.receive P
        { idKey := bId, verifyPeer := vB, spkPub := none, spkPriv := none,
          dr := some (activeAfterFirstSend P sk ad (P.curve spkF basepoint) drF) }
        freshB (dataEnvOf P sk spkF drF freshA ad p)).sess
      isEstablished := false
      isClosed := false
      plaintext := p
      err := none } := by
  unfold dataEnvOf
  unfold Session.receive
  rw [unmarshal_marshal 3 _ (by omega) (by omega)
    (show IsBytes (P.curve freshA basepoint ++ (be4 0 ++ (be4 0 ++
        aeadA P sk spkF drF freshA ad p))) from
      isBytes_append (G.curveBytes _ _) (isBytes_append (isBytes_be4 0)
        (isBytes_append (isBytes_be4 0)
          (isBytes_append (G.aesBytes _ _ _ (isBytes_padded16 hp)) (G.hmacBytes _ _)))))]
  unfold bodyUnmarshal
  rw [if_neg (by omega), if_neg (by omega), if_pos rfl]
  unfold dataUnmarshal Session.receiveData
  simp only [Except.map]
  rw [decryptRaw_of_marshalled2 P _ freshB 0 0 _ (G.curveLen freshA basepoint) (by omega)
    (by omega)]
  unfold DoubleRatchet.decrypt
  dsimp only
  simp only [Nat.cast_zero]
  rw [if_pos (by simp only [activeAfterFirstSend]; exact hne)]
  rw [skipMsgKeys_noRecvChain P _ 0 (by simp [activeAfterFirstSend, maxSkip]) rfl]
  unfold DoubleRatchet.dhStep DhRatchet.step activeAfterFirstSend
  simp [dh_ok P hdrF (G.curveLen freshA basepoint), rootKdf_recvB2 G sk spkF drF freshA,
    dh_ok P hfB (G.curveLen freshA basepoint),
    rootKdf_sendB G sk spkF drF freshA (P.curve freshB (P.curve freshA basepoint)),
    chainKdf_sendCkA G sk spkF drF freshA, decrypt_aeadA G sk spkF drF freshA ad p]

/-- Claim C1: for every plaintext p and every pair of sessions that
completed the handshake — A offers, B acknowledges the offer, A receives
the ack and is established — B's Receive of the envelope emitted by
A's Send(p) succeeds, returning err = none and plaintext equal to p.
Hypotheses: both verify callbacks accept the peer's identity key, the
sampled scalars are 32 bytes, payload and p are byte lists, and the
fresh DH public key in A's data message differs from B's stored peer
key (true for honest randomness, since B's own key was sampled
independently). -/
theorem claim1_roundtrip {P : Prims} (G : GoodPrims P)
    (aId bId spkF ekF drF freshA freshB freshS payload p : Bytes)
    (vA vB : Bytes → Bool)
    (hvA : vA (P.edPub bId) = true) (hvB : vB (P.edPub aId) = true)
    (hspk : spkF.length = 32) (hek : ekF.length = 32) (hdrF : drF.length = 32)
    (hfA : freshA.length = 32) (hfB : freshB.length = 32)
    (hpay : IsBytes payload) (hp : IsBytes p)
    (hne : P.curve freshA basepoint ≠ P.curve spkF basepoint) :
    ∃ ackEnv dataEnv,
      ((sessionInit bId vB).acknowledge P ekF drF payload
        ((sessionInit aId vA).offer P spkF).2).2 = .ok ackEnv ∧
      (Session.send P
        (Session.receive P ((sessionInit aId vA).offer P spkF).1 freshA ackEnv).sess
        freshS p).2 = .ok dataEnv ∧
      (Session.receive P
        ((sessionInit bId vB).acknowledge P ekF drF payload
          ((sessionInit aId vA).offer P spkF).2).1 freshB dataEnv).err = none ∧
      (Session.receive P
        ((sessionInit bId vB).acknowledge P ekF drF payload
          ((sessionInit aId vA).offer P spkF).2).1 freshB dataEnv).plaintext = p := by
  have hoff2 : ((sessionInit aId vA).offer P spkF).2 = offerEnvOf P aId spkF := rfl
  have hoff1 : ((sessionInit aId vA).offer P spkF).1 =
      { idKey := aId, verifyPeer := vA, spkPub := some (P.curve spkF basepoint),
        spkPriv := some spkF, dr := none } := rfl
  have hack := acknowledge_eq G aId bId spkF ekF drF payload vB hvB hspk hek hdrF
  have hrecv := receive_ack_established G aId bId spkF ekF drF payload freshA vA
    hvA hspk hek hdrF hfA hpay
  have hdata := receive_data_roundtrip G bId (hsSk P aId bId spkF ekF) (hsAd P aId bId)
    spkF drF freshA freshB p vB (hsSk_len G aId bId spkF ekF) hdrF hfB hp hne
  refine ⟨ackEnvOf P aId bId spkF ekF drF payload,
    dataEnvOf P (hsSk P aId bId spkF ekF) spkF drF freshA (hsAd P aId bId) p,
    ?_, ?_, ?_, ?_⟩
  · rw [hoff2, hack]
  · rw [hoff1, hrecv]
    exact send_after_ack G aId (hsSk P aId bId spkF ekF) (hsAd P aId bId) spkF drF
      freshA freshS p vA
  · rw [hoff2, hack]
    dsimp only
    rw [hdata]
  · rw [hoff2, hack]
    dsimp only
    rw [hdata]

theorem claim1_witness :
    ∃ ackEnv dataEnv,
      ((sessionInit bobId (fun _ => true)).acknowledge testPrims (List.replicate 32 4)
        (List.replicate 32 5) (List.replicate 23 6)
        ((sessionInit aliceId (fun _ => true)).offer testPrims
          (List.replicate 32 3)).2).2 = .ok ackEnv ∧
      (Session.send testPrims
        (Session.receive testPrims
          ((sessionInit aliceId (fun _ => true)).offer testPrims (List.replicate 32 3)).1
          (List.replicate 32 7) ackEnv).sess
        (List.replicate 32 9) [10, 20, 30]).2 = .ok dataEnv ∧
      (Session.receive testPrims
        ((sessionInit bobId (fun _ => true)).acknowledge testPrims (List.replicate 32 4)
          (List.replicate 32 5) (List.replicate 23 6)
          ((sessionInit aliceId (fun _ => true)).offer testPrims
            (List.replicate 32 3)).2).1
        (List.replicate 32 8) dataEnv).err = none ∧
      (Session.receive testPrims
        ((sessionInit bobId (fun _ => true)).acknowledge testPrims (List.replicate 32 4)
          (List.replicate 32 5) (List.replicate 23 6)
          ((sessionInit aliceId (fun _ => true)).offer testPrims
            (List.replicate 32 3)).2).1
        (List.replicate 32 8) dataEnv).plaintext = [10, 20, 30] :=
  claim1_roundtrip testPrims_good aliceId bobId (List.replicate 32 3)
    (List.replicate 32 4) (List.replicate 32 5) (List.replicate 32 7)
    (List.replicate 32 8) (List.replicate 32 9) (List.replicate 23 6) [10, 20, 30]
    (fun _ => true) (fun _ => true) rfl rfl (by decide) (by decide) (by decide)
    (by decide) (by decide) (by decide) (by decide) (by decide)

/-- Claim C6 (the code evaluated at the failing input): with 8 chains of
32 keys already cached, skipMsgKeys for a previously-unseen peer DH public
key succeeds and creates a NINTH chain, growing the buffer to 288 keys —
above the claimed 8 × 32 bound — while every key of the oldest chain is
still present: the map-based buffer in doubleratchet.go never evicts. -/
theorem claim6_no_eviction :
    (fullBufferDr.skipMsgKeys testPrims 32).2 = none ∧
    (fullBufferDr.skipMsgKeys testPrims 32).1.skippedMsgKeys.length = 9 ∧
    totalSkipped (fullBufferDr.skipMsgKeys testPrims 32).1.skippedMsgKeys = 288 ∧
    findSkipped (fullBufferDr.skipMsgKeys testPrims 32).1.skippedMsgKeys
      (dhPubId (pkOf 0)) 0 = some [7] :=
  ⟨rfl, rfl, rfl, rfl⟩

end Xochimilco
